import Mathlib

/-!
Verification of the adjoint mean-flow solver core (`CAdjEulerSolution` in
`SU2_CFD/src/solution_adjoint_mean.cpp`).

The embedding is shallow: C `double` arithmetic is idealised by exact
rationals `ℚ`; per-node/per-variable arrays become functions `ℕ → ℚ`;
the block-sparse Jacobian becomes `ℕ → ℕ → ℕ → ℕ → ℚ`
(row point, column point, row variable, column variable); sequential
`for` loops become folds over `List.range`; calls into external
collaborator classes (numerics solvers, the sparse-matrix Krylov
routines, the variable-store accessors) become explicit function
parameters, since those classes live outside this translation unit.
-/

namespace SU2

/-- Per-node, per-variable field (point index, then variable index). -/
abbrev Field2 := ℕ → ℕ → ℚ

/-- One `nVar × nVar` dense Jacobian block. -/
abbrev Blk := ℕ → ℕ → ℚ

/-- Block-sparse Jacobian: (row point, col point) ↦ dense block. -/
abbrev Blk4 := ℕ → ℕ → ℕ → ℕ → ℚ

/-- Sequential `for (i = 0; i < n; i++) body` over a state. -/
def foldRange {σ : Type} (n : ℕ) (f : ℕ → σ → σ) (s : σ) : σ :=
  (List.range n).foldl (fun s i => f i s) s

/-- Semantics of an inner `for (iVar = 0; iVar < n; iVar++) buf[base+iVar] = g iVar`
loop: the loop writes `n` consecutive cells whose values do not depend on the
loop state. -/
def writeBlock (f : ℕ → ℚ) (base n : ℕ) (g : ℕ → ℚ) : ℕ → ℚ :=
  fun t => if base ≤ t ∧ t < base + n then g (t - base) else f t

/-! ## Residual / Jacobian scatter primitives

`CVariable::SubtractRes_Conv`, `CVariable::SubtractRes_Visc` subtract a
contribution vector from one node's accumulator;
`CSparseMatrix::SubtractBlock` / `AddBlock` subtract/add a dense block at one
(point, point) position. -/

/-- `node[p]->SubtractRes_*(r)`: subtract the vector `r` from node `p`'s row. -/
def subRes (res : Field2) (p : ℕ) (r : ℕ → ℚ) : Field2 :=
  fun q v => if q = p then res q v - r v else res q v

/-- `Jacobian.SubtractBlock(i, j, B)`. -/
def SubtractBlock (jac : Blk4) (i j : ℕ) (B : Blk) : Blk4 :=
  fun a b v w => if a = i ∧ b = j then jac a b v w - B v w else jac a b v w

/-- `Jacobian.AddBlock(i, j, B)`. -/
def AddBlock (jac : Blk4) (i j : ℕ) (B : Blk) : Blk4 :=
  fun a b v w => if a = i ∧ b = j then jac a b v w + B v w else jac a b v w

/-- State touched by one edge visit of residual assembly. -/
structure AssemblyState where
  resConv : Field2
  resVisc : Field2
  jac : Blk4

/-- Per-edge scatter of `CAdjEulerSolution::Centered_Residual`
(`solution_adjoint_mean.cpp:1049-1063`): after the numerics call, both
endpoints get `SubtractRes_Conv`, both get `SubtractRes_Visc` when
dissipation is active, and — when implicit — the four blocks ii/ij/ji/jj
are all subtracted. -/
def Centered_Residual_edge (implicit dissipation : Bool) (iPoint jPoint : ℕ)
    (ResConvI ResConvJ ResViscI ResViscJ : ℕ → ℚ)
    (Jii Jij Jji Jjj : Blk) (s : AssemblyState) : AssemblyState :=
  let s1 : AssemblyState :=
    { s with resConv := subRes (subRes s.resConv iPoint ResConvI) jPoint ResConvJ }
  let s2 : AssemblyState :=
    if dissipation then
      { s1 with resVisc := subRes (subRes s1.resVisc iPoint ResViscI) jPoint ResViscJ }
    else s1
  if implicit then
    { s2 with jac :=
        SubtractBlock (SubtractBlock (SubtractBlock (SubtractBlock s2.jac
          iPoint iPoint Jii) iPoint jPoint Jij) jPoint iPoint Jji) jPoint jPoint Jjj }
  else s2

/-- Per-edge scatter of `CAdjEulerSolution::Upwind_Residual`
(`solution_adjoint_mean.cpp:1160-1244`).  Continuous-adjoint mode subtracts
the residual at both endpoints and subtracts the four blocks when implicit;
discrete-adjoint first-order mode adds `Jacobian_i` at (i,i), subtracts it at
(i,j), adds `Jacobian_j` at (j,i) and subtracts it at (j,j); the
discrete second-order branch is commented out in the source and does
nothing. -/
def Upwind_Residual_edge (implicit discrete highOrderDiss : Bool)
    (iPoint jPoint : ℕ) (ResidualI ResidualJ : ℕ → ℚ)
    (JacI JacJ : Blk) (Jii Jij Jji Jjj : Blk) (s : AssemblyState) : AssemblyState :=
  if discrete then
    if !highOrderDiss then
      { s with jac :=
          SubtractBlock (AddBlock (SubtractBlock (AddBlock s.jac
            iPoint iPoint JacI) iPoint jPoint JacI) jPoint iPoint JacJ) jPoint jPoint JacJ }
    else s
  else
    let s1 : AssemblyState :=
      { s with resConv := subRes (subRes s.resConv iPoint ResidualI) jPoint ResidualJ }
    if implicit then
      { s1 with jac :=
          SubtractBlock (SubtractBlock (SubtractBlock (SubtractBlock s1.jac
            iPoint iPoint Jii) iPoint jPoint Jij) jPoint iPoint Jji) jPoint jPoint Jjj }
    else s1

/-! ## Time integration (`ImplicitEuler_Iteration`, `Solve_LinearSystem`,
`ExplicitEuler_Iteration`, `ExplicitRK_Iteration`, `Preprocessing`) -/

/-- `config->GetKind_Linear_Solver()` values used by the dispatch. -/
inductive KindLinearSolver
  | SYM_GAUSS_SEIDEL
  | LU_SGS
  | BCGSTAB
  | GMRES
deriving DecidableEq

/-- `config->GetKind_Linear_Solver_Prec()` values used by the dispatch. -/
inductive KindPrec
  | JACOBI
  | LINELET
  | NO_PREC
deriving DecidableEq

/-- Read-only geometry/flow inputs of one iteration. -/
structure GeoFlow where
  nPoint : ℕ
  nPointDomain : ℕ
  nVar : ℕ
  volume : ℕ → ℚ
  deltaTime : ℕ → ℚ

/-- The per-node adjoint variable store touched by time integration. -/
structure NodeState where
  solution : Field2
  resConv : Field2
  resVisc : Field2
  resSour : Field2
  truncErr : Field2

/-- `Res = local_ResConv + local_ResVisc + local_ResSour + local_Res_TruncError`. -/
def totalRes (ns : NodeState) (p v : ℕ) : ℚ :=
  ns.resConv p v + ns.resVisc p v + ns.resSour p v + ns.truncErr p v

/-- The member arrays `Jacobian`, `rhs`, `xsol` of the solver instance. -/
structure LinSys where
  jac : Blk4
  rhs : ℕ → ℚ
  xsol : ℕ → ℚ

/-- Linear-solver configuration scalars. -/
structure LinConfig where
  kind : KindLinearSolver
  prec : KindPrec
  linErr : ℚ
  linIter : ℕ

/-- The external linear-solve routines (`CSparseMatrix::SGSSolution`,
`CSparseMatrix::LU_SGSIteration`, `CSysSolve::BCGSTAB`,
`CSysSolve::FlexibleGMRES`); they live outside this translation unit, so the
embedding takes them as parameters.  The Krylov routines also receive the
preconditioner choice. -/
structure LinSolvers where
  sgs : Blk4 → (ℕ → ℚ) → (ℕ → ℚ) → ℚ → ℕ → (ℕ → ℚ)
  lusgs : Blk4 → (ℕ → ℚ) → (ℕ → ℚ) → (ℕ → ℚ)
  bcgstab : KindPrec → Blk4 → (ℕ → ℚ) → (ℕ → ℚ) → ℚ → ℕ → (ℕ → ℚ)
  gmres : KindPrec → Blk4 → (ℕ → ℚ) → (ℕ → ℚ) → ℚ → ℕ → (ℕ → ℚ)

/-- The linear-solve dispatch shared by `ImplicitEuler_Iteration`
(`solution_adjoint_mean.cpp:1853-1894`) and `Solve_LinearSystem`
(`solution_adjoint_mean.cpp:2001-2045`): one strategy is selected by
`config->GetKind_Linear_Solver()`. -/
def dispatchSolve (cfg : LinConfig) (S : LinSolvers) (sys : LinSys) : ℕ → ℚ :=
  match cfg.kind with
  | .SYM_GAUSS_SEIDEL => S.sgs sys.jac sys.rhs sys.xsol cfg.linErr cfg.linIter
  | .LU_SGS => S.lusgs sys.jac sys.rhs sys.xsol
  | .BCGSTAB => S.bcgstab cfg.prec sys.jac sys.rhs sys.xsol cfg.linErr cfg.linIter
  | .GMRES => S.gmres cfg.prec sys.jac sys.rhs sys.xsol cfg.linErr cfg.linIter

/-- `Jacobian.AddVal2Diag(iPoint, Delta)`: add `Delta` to each of the `nVar`
diagonal entries of the diagonal block of point `p`. -/
def AddVal2Diag (jac : Blk4) (p nVar : ℕ) (d : ℚ) : Blk4 :=
  fun a b v w =>
    if a = p ∧ b = p ∧ v = w ∧ v < nVar then jac a b v w + d else jac a b v w

/-- Body of the implicit-system build loop over owned points
(`solution_adjoint_mean.cpp:1816-1841`): diagonal augmentation by
`Vol/Δt`, right-hand side `-(Res)`, initial guess `0`. -/
def implicitBuildStep (geo : GeoFlow) (ns : NodeState) (p : ℕ) (st : LinSys) :
    LinSys :=
  { jac := AddVal2Diag st.jac p geo.nVar (geo.volume p / geo.deltaTime p)
    rhs := writeBlock st.rhs (p * geo.nVar) geo.nVar (fun v => -(totalRes ns p v))
    xsol := writeBlock st.xsol (p * geo.nVar) geo.nVar (fun _ => 0) }

/-- Body of the ghost-point initialisation loop
(`solution_adjoint_mean.cpp:1843-1850`): residual and solution buffers are
zeroed at halo points. -/
def ghostInitStep (nVar p : ℕ) (st : LinSys) : LinSys :=
  { st with
    rhs := writeBlock st.rhs (p * nVar) nVar (fun _ => 0)
    xsol := writeBlock st.xsol (p * nVar) nVar (fun _ => 0) }

/-- `node[iPoint]->AddSolution(iVar, xsol[iPoint*nVar+iVar])`
(`solution_adjoint_mean.cpp:1896-1899`). -/
def addSolutionStep (nVar : ℕ) (xs : ℕ → ℚ) (p : ℕ) (sol : Field2) : Field2 :=
  fun q v => if q = p ∧ v < nVar then sol q v + xs (p * nVar + v) else sol q v

/-- `CAdjEulerSolution::ImplicitEuler_Iteration`
(`solution_adjoint_mean.cpp:1803-1910`), with the RMS/Max bookkeeping and the
MPI exchange elided (they do not touch the solution, residual or linear
system).  Returns the updated node state, the assembled linear system and the
solved increment. -/
def ImplicitEuler_Iteration (geo : GeoFlow) (cfg : LinConfig) (S : LinSolvers)
    (ns : NodeState) (sys0 : LinSys) : NodeState × LinSys × (ℕ → ℚ) :=
  let sys1 := foldRange geo.nPointDomain (implicitBuildStep geo ns) sys0
  let sys2 := foldRange (geo.nPoint - geo.nPointDomain)
      (fun i => ghostInitStep geo.nVar (geo.nPointDomain + i)) sys1
  let xs := dispatchSolve cfg S sys2
  let sol := foldRange geo.nPointDomain (addSolutionStep geo.nVar xs) ns.solution
  ({ ns with solution := sol }, sys2, xs)

/-- Body of the discrete-adjoint build loop
(`solution_adjoint_mean.cpp:1917-1926`): the right-hand side is the stored
per-node objective-function source vector (no negation, no residual), the
initial guess is `0`. -/
def objSourceStep (nVar : ℕ) (objFuncSource : Field2) (p : ℕ) (st : LinSys) :
    LinSys :=
  { st with
    rhs := writeBlock st.rhs (p * nVar) nVar (fun v => objFuncSource p v)
    xsol := writeBlock st.xsol (p * nVar) nVar (fun _ => 0) }

/-- `node[iPoint]->SetSolution(iVar, xsol[iPoint*nVar+iVar])`
(`solution_adjoint_mean.cpp:2046-2049`): overwrite, not increment. -/
def setSolutionStep (nVar : ℕ) (xs : ℕ → ℚ) (p : ℕ) (sol : Field2) : Field2 :=
  fun q v => if q = p ∧ v < nVar then xs (p * nVar + v) else sol q v

/-- `CAdjEulerSolution::Solve_LinearSystem`
(`solution_adjoint_mean.cpp:1912-2050`): same dispatch as the implicit Euler
iteration, but the right-hand side comes from `GetObjFuncSource` and the
result overwrites the adjoint state. -/
def Solve_LinearSystem (geo : GeoFlow) (cfg : LinConfig) (S : LinSolvers)
    (objFuncSource : Field2) (ns : NodeState) (sys0 : LinSys) :
    NodeState × LinSys × (ℕ → ℚ) :=
  let sys1 := foldRange geo.nPointDomain (objSourceStep geo.nVar objFuncSource) sys0
  let xs := dispatchSolve cfg S sys1
  let sol := foldRange geo.nPointDomain (setSolutionStep geo.nVar xs) ns.solution
  ({ ns with solution := sol }, sys1, xs)

/-- Body of the explicit-Euler update loop
(`solution_adjoint_mean.cpp:1776-1792`): `AddSolution(iVar, -Res*Delta)` with
`Delta = Δt/Vol`. -/
def explicitEulerStep (geo : GeoFlow) (ns : NodeState) (p : ℕ) (sol : Field2) :
    Field2 :=
  fun q v =>
    if q = p ∧ v < geo.nVar then
      sol q v - totalRes ns p v * (geo.deltaTime p / geo.volume p)
    else sol q v

/-- `CAdjEulerSolution::ExplicitEuler_Iteration`
(`solution_adjoint_mean.cpp:1765-1801`), RMS/Max bookkeeping and MPI
exchange elided. -/
def ExplicitEuler_Iteration (geo : GeoFlow) (ns : NodeState) : NodeState :=
  { ns with
    solution := foldRange geo.nPointDomain (explicitEulerStep geo ns) ns.solution }

/-- Body of the Runge-Kutta update loop (`solution_adjoint_mean.cpp:1739-1755`):
`AddSolution(iVar, -Res*Delta*RK_AlphaCoeff)` where the residual comes from the
external accessor `GetResidual` plus the truncation error. -/
def explicitRKStep (geo : GeoFlow) (getRes : Field2) (truncErr : Field2)
    (alpha : ℚ) (p : ℕ) (sol : Field2) : Field2 :=
  fun q v =>
    if q = p ∧ v < geo.nVar then
      sol q v - (getRes p v + truncErr p v) * (geo.deltaTime p / geo.volume p) * alpha
    else sol q v

/-- `CAdjEulerSolution::ExplicitRK_Iteration`
(`solution_adjoint_mean.cpp:1726-1763`), RMS/Max bookkeeping and MPI
exchange elided. -/
def ExplicitRK_Iteration (geo : GeoFlow) (alpha : ℚ) (getRes : Field2)
    (ns : NodeState) : NodeState :=
  { ns with
    solution :=
      foldRange geo.nPointDomain (explicitRKStep geo getRes ns.truncErr alpha)
        ns.solution }

/-- Body of the residual-initialisation loop of
`CAdjEulerSolution::Preprocessing` (`solution_adjoint_mean.cpp:946-958`):
`Set_ResConv_Zero`, `Set_ResSour_Zero` always; `Set_ResVisc_Zero` only when
the Runge-Kutta beta coefficient is nonzero or the scheme is implicit. -/
def preprocResInitStep (dissipOrImplicit : Bool) (p : ℕ) (ns : NodeState) :
    NodeState :=
  { ns with
    resConv := fun q v => if q = p then 0 else ns.resConv q v
    resSour := fun q v => if q = p then 0 else ns.resSour q v
    resVisc :=
      if dissipOrImplicit then
        fun q v => if q = p then 0 else ns.resVisc q v
      else ns.resVisc }

/-- The residual-initialisation phase of `CAdjEulerSolution::Preprocessing`:
a loop over ALL points (`geometry->GetnPoint()`). -/
def Preprocessing_ResInit (geo : GeoFlow) (betaRKNonzero implicit : Bool)
    (ns : NodeState) : NodeState :=
  foldRange geo.nPoint (preprocResInitStep (betaRKNonzero || implicit)) ns


/-! ## Compressible inlet under TOTAL_CONDITIONS (C4) -/

/-- Intermediate quantities of the TOTAL_CONDITIONS inlet state construction;
each field corresponds to one assignment of the source, with reassigned C
variables split into separate fields. -/
structure InletTC where
  aa : ℚ
  bb : ℚ
  cc : ℚ
  dd : ℚ
  velMagRoot : ℚ
  velMagFloor : ℚ
  soundSpeed2b : ℚ
  mach2 : ℚ
  mach2cut : ℚ
  velocity2c : ℚ
  velMagFinal : ℚ

/-- The `case TOTAL_CONDITIONS` branch of `CAdjEulerSolution::BC_Inlet`
(`solution_adjoint_mean.cpp:3739-3830`), compressible flow: builds the
quadratic `aa·V² + bb·V + cc = 0` for the exterior velocity magnitude from
the specified total pressure/temperature (through the total enthalpy and the
total speed of sound), the flow direction (through `alpha`) and the Riemann
invariant extrapolated from the interior, then takes the `+` root, floors the
magnitude at 0 and caps the Mach number squared at 1 before the exterior
conservative state is rebuilt from it.  `sq` stands for the C library `sqrt`,
taken as a parameter: root selection, flooring and capping do not depend on
its numerics. -/
def BC_Inlet_TotalConditions (nDim : ℕ) (sq : ℚ → ℚ)
    (Gamma GasConstant P_Total T_Total : ℚ)
    (FlowDir UnitaryNormal U_domain : ℕ → ℚ) : InletTC :=
  let Gm1 := Gamma - 1
  let Density := U_domain 0
  let Velocity := fun d => U_domain (d + 1) / Density
  let Velocity2 := ∑ d in Finset.range nDim, Velocity d * Velocity d
  let Energy := U_domain (nDim + 1) / Density
  let Pressure := Gm1 * Density * (Energy - 1/2 * Velocity2)
  let H_Total := (Gamma * GasConstant / Gm1) * T_Total
  let SoundSpeed2 := Gamma * Pressure / Density
  let Riemann := 2 * sq SoundSpeed2 / Gm1 +
    ∑ d in Finset.range nDim, Velocity d * UnitaryNormal d
  let SoundSpeed_Total2 :=
    Gm1 * (H_Total - (Energy + Pressure / Density) + 1/2 * Velocity2) + SoundSpeed2
  let alpha := ∑ d in Finset.range nDim, UnitaryNormal d * FlowDir d
  let aa := 1 + 1/2 * Gm1 * alpha * alpha
  let bb := -1 * Gm1 * alpha * Riemann
  let cc := 1/2 * Gm1 * Riemann * Riemann - 2 * SoundSpeed_Total2 / Gm1
  let dd := sq (max 0 (bb * bb - 4 * aa * cc))
  let velMagRoot := (-bb + dd) / (2 * aa)
  let velMagFloor := max 0 velMagRoot
  let Velocity2b := velMagFloor * velMagFloor
  let SoundSpeed2b := SoundSpeed_Total2 - 1/2 * Gm1 * Velocity2b
  let mach2 := Velocity2b / SoundSpeed2b
  let mach2cut := min 1 mach2
  let Velocity2c := mach2cut * SoundSpeed2b
  let velMagFinal := sq Velocity2c
  ⟨aa, bb, cc, dd, velMagRoot, velMagFloor, SoundSpeed2b, mach2, mach2cut,
   Velocity2c, velMagFinal⟩


/-! ## Adjoint restart construction (C5) -/

/-- `config->GetKind_ObjFunc()` values appearing in the restart-suffix switch
(`solution_adjoint_mean.cpp:173-192`). -/
inductive ObjFunc
  | DRAG_COEFFICIENT
  | LIFT_COEFFICIENT
  | SIDEFORCE_COEFFICIENT
  | PRESSURE_COEFFICIENT
  | MOMENT_X_COEFFICIENT
  | MOMENT_Y_COEFFICIENT
  | MOMENT_Z_COEFFICIENT
  | EFFICIENCY
  | EQUIVALENT_AREA
  | NEARFIELD_PRESSURE
  | FORCE_X_COEFFICIENT
  | FORCE_Y_COEFFICIENT
  | FORCE_Z_COEFFICIENT
  | THRUST_COEFFICIENT
  | TORQUE_COEFFICIENT
  | FIGURE_OF_MERIT
  | FREESURFACE
  | NOISE
deriving DecidableEq

/-- The objective-specific restart suffix switch
(`solution_adjoint_mean.cpp:173-192`). -/
def AdjExt : ObjFunc → String
  | .DRAG_COEFFICIENT => "_cd.dat"
  | .LIFT_COEFFICIENT => "_cl.dat"
  | .SIDEFORCE_COEFFICIENT => "_csf.dat"
  | .PRESSURE_COEFFICIENT => "_cp.dat"
  | .MOMENT_X_COEFFICIENT => "_cmx.dat"
  | .MOMENT_Y_COEFFICIENT => "_cmy.dat"
  | .MOMENT_Z_COEFFICIENT => "_cmz.dat"
  | .EFFICIENCY => "_eff.dat"
  | .EQUIVALENT_AREA => "_ea.dat"
  | .NEARFIELD_PRESSURE => "_nfp.dat"
  | .FORCE_X_COEFFICIENT => "_cfx.dat"
  | .FORCE_Y_COEFFICIENT => "_cfy.dat"
  | .FORCE_Z_COEFFICIENT => "_cfz.dat"
  | .THRUST_COEFFICIENT => "_ct.dat"
  | .TORQUE_COEFFICIENT => "_cq.dat"
  | .FIGURE_OF_MERIT => "_merit.dat"
  | .FREESURFACE => "_fs.dat"
  | .NOISE => "_fwh.dat"

/-- All objective kinds of the suffix switch, in source order. -/
def objFuncList : List ObjFunc :=
  [.DRAG_COEFFICIENT, .LIFT_COEFFICIENT, .SIDEFORCE_COEFFICIENT,
   .PRESSURE_COEFFICIENT, .MOMENT_X_COEFFICIENT, .MOMENT_Y_COEFFICIENT,
   .MOMENT_Z_COEFFICIENT, .EFFICIENCY, .EQUIVALENT_AREA, .NEARFIELD_PRESSURE,
   .FORCE_X_COEFFICIENT, .FORCE_Y_COEFFICIENT, .FORCE_Z_COEFFICIENT,
   .THRUST_COEFFICIENT, .TORQUE_COEFFICIENT, .FIGURE_OF_MERIT, .FREESURFACE,
   .NOISE]

/-- `filename.erase(filename.end()-4, filename.end()); filename.append(AdjExt)`
(`solution_adjoint_mean.cpp:170-193`): strip the last 4 characters of the
configured adjoint solution file name, then append the objective suffix. -/
def restartFilename (base : String) (k : ObjFunc) : String :=
  base.dropRight 4 ++ AdjExt k

/-- One parsed restart line: the global index followed by the solution
components (`point_line >> index >> Solution[0] >> ...`). -/
structure RestartLine where
  idx : ℕ
  vals : List ℚ
deriving DecidableEq

/-- Outcome of the restart branch of the constructor: either a fatal
diagnostic with a process exit code, or the per-node solution table. -/
inductive RestartOutcome (α : Type)
  | fatal (msg : String) (exitCode : ℕ)
  | ok (a : α)

/-- The restart read loop (`solution_adjoint_mean.cpp:222-241`): one line per
file row; `iPoint_Global` counts rows; a row is stored into
`node[Global2Local[iPoint_Global]]` only when that local index is
nonnegative. -/
def readRestartLines (g2l : ℕ → ℤ) (iG : ℕ) :
    List RestartLine → (ℕ → List ℚ) → (ℕ → List ℚ)
  | [], node => node
  | line :: rest, node =>
      readRestartLines g2l (iG + 1) rest
        (if 0 ≤ g2l iG then
          fun q => if q = (g2l iG).toNat then line.vals else node q
        else node)

/-- The serial Global2Local map: every global index is local. -/
def g2l_serial : ℕ → ℤ := fun n => Int.ofNat n

/-- The restart branch of the `CAdjEulerSolution` constructor
(`solution_adjoint_mean.cpp:166-245`): a missing file is fatal
("There is no adjoint restart file!!", `exit(1)`); otherwise the first line
(the header) is discarded and the remaining lines are read one per mesh
point. -/
def CAdjEulerSolution_restart (file : Option (List RestartLine))
    (g2l : ℕ → ℤ) (node0 : ℕ → List ℚ) : RestartOutcome (ℕ → List ℚ) :=
  match file with
  | none => .fatal "There is no adjoint restart file!!" 1
  | some lines => .ok (readRestartLines g2l 0 (lines.drop 1) node0)


/-! ## BC_Outlet incompressible level-set branch (C8) -/

/-- The incompressible level-set branch of `CAdjEulerSolution::BC_Outlet`
(`solution_adjoint_mean.cpp:4036-4051`).  The local variable `RatioDensity`
is declared (`solution_adjoint_mean.cpp:3980`) but assigned nowhere in the
function, so the embedding must carry its indeterminate initial contents as
the explicit parameter `ratioDensity0`; `densityOutlet0` likewise carries the
declared-but-unassigned initial contents of `Density_Outlet`.  Returns the
pair `(Density_Outlet, U_outlet[0])` that the exterior state is built
from. -/
def BC_Outlet_levelset (ratioDensity0 densityOutlet0 : ℚ)
    (DensityFreeStreamND PressFreeSurface FreeSurface_Zero Froude eps
      Height normalNeighborPressure normalNeighborDensityInc : ℚ) : ℚ × ℚ :=
  let LevelSet := Height - FreeSurface_Zero
  let d1 := if LevelSet < -eps then DensityFreeStreamND else densityOutlet0
  let d2 := if LevelSet > eps then ratioDensity0 * DensityFreeStreamND else d1
  let u0 := PressFreeSurface + d2 * ((FreeSurface_Zero - Height) / (Froude * Froude))
  let u0' := if |LevelSet| ≤ eps then normalNeighborPressure else u0
  let d3 := if |LevelSet| ≤ eps then normalNeighborDensityInc else d2
  (d3, u0')

/-! ## Second-order upwind MUSCL reconstruction with limiter (C9) -/

/-- State of the reconstruction loop of `CAdjEulerSolution::Upwind_Residual`
(`solution_adjoint_mean.cpp:1133-1150`): the function-scope loop variable
`iDim` (shared by the projection loops of every `iVar` iteration) and the two
reconstructed adjoint arrays. -/
structure MusclState where
  iDim : ℕ
  solI : ℕ → ℚ
  solJ : ℕ → ℚ

/-- The inner projection loop `for (iDim = 0; iDim < nDim; iDim++)` of one
`iVar` iteration: accumulates `Project_Grad_i`/`Project_Grad_j` while
driving the shared `iDim` to the value it holds when the loop condition
first fails.  Returns `(Project_Grad_i, Project_Grad_j, iDim)`. -/
def projGrad (nDim : ℕ) (vecI vecJ : ℕ → ℚ) (gradI gradJ : ℕ → ℕ → ℚ)
    (iVar : ℕ) : ℚ × ℚ × ℕ :=
  foldRange nDim
    (fun d s => (s.1 + vecI d * gradI iVar d, s.2.1 + vecJ d * gradJ iVar d, d + 1))
    (0, 0, 0)

/-- One `iVar` iteration of the limiter-enabled reconstruction
(`solution_adjoint_mean.cpp:1136-1148`): after the projection loop the code
reads `Limiter_i[iDim]` — the shared loop variable, at its loop-exit
value — and not `Limiter_i[iVar]`. -/
def musclReconstructStep (nDim : ℕ) (vecI vecJ limI limJ psiI psiJ : ℕ → ℚ)
    (gradI gradJ : ℕ → ℕ → ℚ) (limiter : Bool) (iVar : ℕ) (st : MusclState) :
    MusclState :=
  let pg := projGrad nDim vecI vecJ gradI gradJ iVar
  if limiter then
    { iDim := pg.2.2
      solI := fun k => if k = iVar then psiI iVar + pg.1 * limI pg.2.2 else st.solI k
      solJ := fun k => if k = iVar then psiJ iVar + pg.2.1 * limJ pg.2.2 else st.solJ k }
  else
    { iDim := pg.2.2
      solI := fun k => if k = iVar then psiI iVar + pg.1 else st.solI k
      solJ := fun k => if k = iVar then psiJ iVar + pg.2.1 else st.solJ k }

/-- The full reconstruction loop `for (iVar = 0; iVar < nVar; iVar++)`. -/
def musclReconstruct (nDim nVar : ℕ) (vecI vecJ limI limJ psiI psiJ : ℕ → ℚ)
    (gradI gradJ : ℕ → ℕ → ℚ) (limiter : Bool) (st0 : MusclState) : MusclState :=
  foldRange nVar
    (musclReconstructStep nDim vecI vecJ limI limJ psiI psiJ gradI gradJ limiter)
    st0

/-! ## BC_FWH acoustic Dirichlet override (C10) -/

/-- Per-node state touched by `BC_FWH`: adjoint solution, old solution, the
four residual accumulators and the scalar-indexed Jacobian rows. -/
structure FWHState where
  solution : Field2
  solutionOld : Field2
  resConv : Field2
  resVisc : Field2
  resSour : Field2
  truncErr : Field2
  jacRow : ℕ → ℕ → ℚ

/-- Modelled from the spec: `CSparseMatrix::DeleteValsRowi` is declared in
the sparse-matrix collaborator outside this translation unit; per the source
comment at the call site ("Change rows of the Jacobian (includes 1 in the
diagonal)") and the spec ("replaces the node's Jacobian rows by identity
rows", "deleting the corresponding Jacobian row") it replaces row `i` of the
scalar-indexed Jacobian by the identity row. -/
def DeleteValsRowi (jac : ℕ → ℕ → ℚ) (i : ℕ) : ℕ → ℕ → ℚ :=
  fun r c => if r = i then (if c = i then 1 else 0) else jac r c

/-- One vertex visit of `CAdjEulerSolution::BC_FWH`
(`solution_adjoint_mean.cpp:4551-4578`): NO `GetDomain()` guard — the body
runs for every vertex of the marker; it overwrites the solution and the old
solution with the stored internal-boundary jump, zeroes all four residual
accumulators, and when implicit replaces the node's `nVar` Jacobian rows by
identity rows. -/
def BC_FWH_vertexStep (implicit : Bool) (nVar : ℕ) (jump : Field2) (p : ℕ)
    (st : FWHState) : FWHState :=
  { solution := fun q v => if q = p then jump q v else st.solution q v
    solutionOld := fun q v => if q = p then jump q v else st.solutionOld q v
    resConv := fun q v => if q = p then 0 else st.resConv q v
    resSour := fun q v => if q = p then 0 else st.resSour q v
    resVisc := fun q v => if q = p then 0 else st.resVisc q v
    truncErr := fun q v => if q = p then 0 else st.truncErr q v
    jacRow :=
      if implicit then
        foldRange nVar (fun v j => DeleteValsRowi j (p * nVar + v)) st.jacRow
      else st.jacRow }

/-- `CAdjEulerSolution::BC_FWH` over the vertex list of one marker (the list
holds `geometry->vertex[val_marker][iVertex]->GetNode()` for each vertex). -/
def BC_FWH (implicit : Bool) (nVar : ℕ) (jump : Field2)
    (vertexNodes : List ℕ) (st : FWHState) : FWHState :=
  vertexNodes.foldl (fun st p => BC_FWH_vertexStep implicit nVar jump p st) st

/-- The vertex guard used by the other boundary handlers, here from
`BC_Far_Field` (`solution_adjoint_mean.cpp:3559-3563`): the body (ending in
`SubtractRes_Conv` at the node) runs only when
`geometry->node[iPoint]->GetDomain()` holds, so halo nodes are skipped. -/
def BC_FarField_vertexStep (domain : ℕ → Bool) (ResidualI : ℕ → ℚ) (p : ℕ)
    (res : Field2) : Field2 :=
  if domain p then subRes res p ResidualI else res


/-! ## Sensitivity smoothing (C7) -/

/-- Single-entry update of a dense matrix stored as a function. -/
def upd2 (A : ℕ → ℕ → ℚ) (r c : ℕ) (x : ℚ) : ℕ → ℕ → ℚ :=
  fun a b => if a = r ∧ b = c then x else A a b

/-- `BackDiff` of row `i` of the smoothing mass matrix
(`solution_adjoint_mean.cpp:2615-2630`); the three mutually exclusive row
cases of the source (interior, last, first — the `iVertex == 0` case written
last so it wins for `nVertex = 1`). -/
def backDiff (n : ℕ) (arch : ℕ → ℚ) (i : ℕ) : ℚ :=
  if i = 0 then arch 0 - arch (n - 1)
  else if i = n - 1 then arch (n - 1) - arch (n - 2)
  else arch i - arch (i - 1)

/-- `ForwDiff` of row `i` (same case split as `backDiff`). -/
def forwDiff (n : ℕ) (arch : ℕ → ℚ) (i : ℕ) : ℚ :=
  if i = 0 then arch 1 - arch 0
  else if i = n - 1 then arch 0 - arch (n - 1)
  else arch (i + 1) - arch i

/-- `CentDiff` of row `i` (same case split as `backDiff`). -/
def centDiff (n : ℕ) (arch : ℕ → ℚ) (i : ℕ) : ℚ :=
  if i = 0 then arch 1 - arch (n - 1)
  else if i = n - 1 then arch 0 - arch (n - 2)
  else arch (i + 1) - arch (i - 1)

/-- One row of the mass-matrix build loop
(`solution_adjoint_mean.cpp:2610-2641`): diagonal entry `Coeff*CentDiff`,
left neighbour (wrapping to column `n-1` at row 0) `-Coeff*ForwDiff`, right
neighbour (wrapping to column 0 at row `n-1`) `-Coeff*BackDiff`, with
`Coeff = epsilon*2/(BackDiff*ForwDiff*CentDiff)`. -/
def smoothRowStep (n : ℕ) (arch : ℕ → ℚ) (eps : ℚ) (i : ℕ)
    (A : ℕ → ℕ → ℚ) : ℕ → ℕ → ℚ :=
  let Back := backDiff n arch i
  let Forw := forwDiff n arch i
  let Cent := centDiff n arch i
  let Coeff := eps * 2 / (Back * Forw * Cent)
  let A1 := upd2 A i i (Coeff * Cent)
  let A2 := if i ≠ 0 then upd2 A1 i (i - 1) (-(Coeff * Forw))
    else upd2 A1 i (n - 1) (-(Coeff * Forw))
  if i ≠ n - 1 then upd2 A2 i (i + 1) (-(Coeff * Back))
  else upd2 A2 i 0 (-(Coeff * Back))

/-- The mass-matrix build loop over all rows, starting from the zeroed
matrix (`solution_adjoint_mean.cpp:2567-2572, 2610-2641`). -/
def smoothMassMatrix (n : ℕ) (arch : ℕ → ℚ) (eps : ℚ) : ℕ → ℕ → ℚ :=
  foldRange n (smoothRowStep n arch eps) (fun _ _ => 0)

/-- `A[iVertex][iVertex] += 1.0` over all rows
(`solution_adjoint_mean.cpp:2643-2645`). -/
def smoothAddIdent (n : ℕ) (A : ℕ → ℕ → ℚ) : ℕ → ℕ → ℚ :=
  foldRange n (fun i B => upd2 B i i (B i i + 1)) A

/-- The Dirichlet pin at the midpoint vertex `m = nVertex/2`
(`solution_adjoint_mean.cpp:2646-2650`): `A[m][m] = 1`, `A[m][m+1] = 0`,
`A[m][m-1] = 0`. -/
def smoothPin (n : ℕ) (A : ℕ → ℕ → ℚ) : ℕ → ℕ → ℚ :=
  upd2 (upd2 (upd2 A (n / 2) (n / 2) 1) (n / 2) (n / 2 + 1) 0)
    (n / 2) (n / 2 - 1) 0

/-- Forward-elimination step with pivot row `i`: every lower row `j`
(`i < j < n`) is reduced by `(A[j][i]/A[i][i])` times the pivot row, on both
the matrix and the right-hand side. -/
def gaussForwardStep (n i : ℕ) (s : (ℕ → ℕ → ℚ) × (ℕ → ℚ)) :
    (ℕ → ℕ → ℚ) × (ℕ → ℚ) :=
  (fun j k => if i < j ∧ j < n then s.1 j k - s.1 j i / s.1 i i * s.1 i k
    else s.1 j k,
   fun j => if i < j ∧ j < n then s.2 j - s.1 j i / s.1 i i * s.2 i
    else s.2 j)

/-- Back-substitution assignment of unknown `j`:
`x[j] = (b[j] - Σ_{k=j+1}^{n-1} A[j][k]·x[k]) / A[j][j]`. -/
def backSubStep (n : ℕ) (A : ℕ → ℕ → ℚ) (b : ℕ → ℚ) (j : ℕ) (x : ℕ → ℚ) :
    ℕ → ℚ :=
  fun r =>
    if r = j then (b j - ∑ k in Finset.Ico (j + 1) n, A j k * x k) / A j j
    else x r

/-- Modelled from the spec: `Gauss_Elimination` is declared in the shared
solution infrastructure outside this translation unit; per the spec
("tridiagonal-like periodic system solved by full Gaussian elimination") it
is standard full Gaussian elimination — forward elimination over all pivots
in order, then back substitution from the last unknown upwards. -/
def Gauss_Elimination (n : ℕ) (A : ℕ → ℕ → ℚ) (b : ℕ → ℚ) : ℕ → ℚ :=
  let fb := foldRange n (gaussForwardStep n) (A, b)
  ((List.range n).reverse).foldl (fun x j => backSubStep n fb.1 fb.2 j x)
    (fun _ => 0)

/-- The diffusion solve of `CAdjEulerSolution::Smooth_Sensitivity`
(`solution_adjoint_mean.cpp:2604-2656`) from the point where the right-hand
side is loaded from the (already trailing-edge-flattened) sensitivities:
build the mass matrix, add the identity, pin the midpoint row, run the
Gaussian elimination and return the new sensitivities. -/
def Smooth_Sensitivity_solve (n : ℕ) (arch : ℕ → ℚ) (eps : ℚ)
    (sens : ℕ → ℚ) : ℕ → ℚ :=
  Gauss_Elimination n (smoothPin n (smoothAddIdent n (smoothMassMatrix n arch eps)))
    sens

/-- Constant unit field, used in concrete witnesses. -/
def oneField : Field2 := fun _ _ => 1

/-- Constant unit contribution vector, used in concrete witnesses. -/
def oneVec : ℕ → ℚ := fun _ => 1

/-- Two-point, one-owned-point, one-variable geometry for concrete witnesses. -/
def geo1 : GeoFlow := ⟨2, 1, 1, fun _ => 1, fun _ => 1⟩

/-- Node state with unit residual accumulators, for concrete witnesses. -/
def ns1 : NodeState :=
  ⟨fun _ _ => 0, fun _ _ => 1, fun _ _ => 1, fun _ _ => 1, fun _ _ => 1⟩

/-- Zero linear system, for concrete witnesses. -/
def sysZero : LinSys := ⟨fun _ _ _ _ => 0, fun _ => 0, fun _ => 0⟩

/-- A concrete linear-solver configuration, for witnesses. -/
def cfg1 : LinConfig := ⟨.SYM_GAUSS_SEIDEL, .JACOBI, 0, 0⟩

/-- Trivial stand-ins for the external solve routines (each returns the
right-hand side), for concrete witnesses. -/
def solversId : LinSolvers :=
  ⟨fun _ rhs _ _ _ => rhs, fun _ rhs _ => rhs,
   fun _ _ rhs _ _ _ => rhs, fun _ _ rhs _ _ _ => rhs⟩

/-- Constant unit dense block, used in concrete witnesses. -/
def oneBlk : Blk := fun _ _ => 1

/-- Zero assembly state, used in concrete witnesses. -/
def zeroAsm : AssemblyState :=
  ⟨fun _ _ => 0, fun _ _ => 0, fun _ _ _ _ => 0⟩

/-- Zero MUSCL reconstruction state, for concrete witnesses. -/
def muscl0 : MusclState := ⟨0, fun _ => 0, fun _ => 0⟩

/-- FWH state with unit contents, for concrete witnesses. -/
def fwh0 : FWHState :=
  ⟨oneField, oneField, oneField, oneField, oneField, oneField, fun _ _ => 1⟩

/-! ## Theorems -/

theorem foldRange_zero {σ : Type} (f : ℕ → σ → σ) (s : σ) :
    foldRange 0 f s = s := rfl

theorem foldRange_succ {σ : Type} (n : ℕ) (f : ℕ → σ → σ) (s : σ) :
    foldRange (n+1) f s = f n (foldRange n f s) := by
  simp [foldRange, List.range_succ]

theorem writeBlock_in (f : ℕ → ℚ) (base n : ℕ) (g : ℕ → ℚ) (v : ℕ)
    (hv : v < n) : writeBlock f base n g (base + v) = g v := by
  simp [writeBlock, hv]

theorem writeBlock_out (f : ℕ → ℚ) (base n : ℕ) (g : ℕ → ℚ) (t : ℕ)
    (ht : t < base ∨ base + n ≤ t) : writeBlock f base n g t = f t := by
  rcases ht with h | h
  · simp [writeBlock]; intro h'; omega
  · simp [writeBlock]; intro h'; omega

theorem subRes_same (res : Field2) (p : ℕ) (r : ℕ → ℚ) (v : ℕ) :
    subRes res p r p v = res p v - r v := by simp [subRes]

theorem subRes_other (res : Field2) (p q : ℕ) (r : ℕ → ℚ) (v : ℕ)
    (h : q ≠ p) : subRes res p r q v = res q v := by simp [subRes, h]

theorem SubtractBlock_same (jac : Blk4) (i j : ℕ) (B : Blk) (v w : ℕ) :
    SubtractBlock jac i j B i j v w = jac i j v w - B v w := by
  simp [SubtractBlock]

theorem SubtractBlock_other (jac : Blk4) (i j a b : ℕ) (B : Blk) (v w : ℕ)
    (h : ¬(a = i ∧ b = j)) : SubtractBlock jac i j B a b v w = jac a b v w := by
  simp only [SubtractBlock, if_neg h]

theorem AddBlock_same (jac : Blk4) (i j : ℕ) (B : Blk) (v w : ℕ) :
    AddBlock jac i j B i j v w = jac i j v w + B v w := by
  simp [AddBlock]

theorem AddBlock_other (jac : Blk4) (i j a b : ℕ) (B : Blk) (v w : ℕ)
    (h : ¬(a = i ∧ b = j)) : AddBlock jac i j B a b v w = jac a b v w := by
  simp only [AddBlock, if_neg h]

theorem Centered_edge_resConv (implicit dissipation : Bool) (i j : ℕ)
    (hij : i ≠ j) (RcI RcJ RvI RvJ : ℕ → ℚ) (Jii Jij Jji Jjj : Blk)
    (s : AssemblyState) (v : ℕ) :
    (Centered_Residual_edge implicit dissipation i j RcI RcJ RvI RvJ
        Jii Jij Jji Jjj s).resConv i v = s.resConv i v - RcI v ∧
    (Centered_Residual_edge implicit dissipation i j RcI RcJ RvI RvJ
        Jii Jij Jji Jjj s).resConv j v = s.resConv j v - RcJ v := by
  cases implicit <;> cases dissipation <;>
    simp [Centered_Residual_edge, subRes, hij, Ne.symm hij]

theorem Centered_edge_jac (dissipation : Bool) (i j : ℕ)
    (hij : i ≠ j) (RcI RcJ RvI RvJ : ℕ → ℚ) (Jii Jij Jji Jjj : Blk)
    (s : AssemblyState) (v w : ℕ) :
    (Centered_Residual_edge true dissipation i j RcI RcJ RvI RvJ
        Jii Jij Jji Jjj s).jac i i v w = s.jac i i v w - Jii v w ∧
    (Centered_Residual_edge true dissipation i j RcI RcJ RvI RvJ
        Jii Jij Jji Jjj s).jac i j v w = s.jac i j v w - Jij v w ∧
    (Centered_Residual_edge true dissipation i j RcI RcJ RvI RvJ
        Jii Jij Jji Jjj s).jac j i v w = s.jac j i v w - Jji v w ∧
    (Centered_Residual_edge true dissipation i j RcI RcJ RvI RvJ
        Jii Jij Jji Jjj s).jac j j v w = s.jac j j v w - Jjj v w := by
  cases dissipation <;>
    simp [Centered_Residual_edge, SubtractBlock, hij, Ne.symm hij]

theorem Upwind_edge_continuous (implicit : Bool) (i j : ℕ)
    (hij : i ≠ j) (RI RJ : ℕ → ℚ) (JacI JacJ Jii Jij Jji Jjj : Blk)
    (s : AssemblyState) (v : ℕ) :
    (Upwind_Residual_edge implicit false false i j RI RJ JacI JacJ
        Jii Jij Jji Jjj s).resConv i v = s.resConv i v - RI v ∧
    (Upwind_Residual_edge implicit false false i j RI RJ JacI JacJ
        Jii Jij Jji Jjj s).resConv j v = s.resConv j v - RJ v := by
  cases implicit <;>
    simp [Upwind_Residual_edge, subRes, hij, Ne.symm hij]

theorem Upwind_edge_continuous_jac (i j : ℕ)
    (hij : i ≠ j) (RI RJ : ℕ → ℚ) (JacI JacJ Jii Jij Jji Jjj : Blk)
    (s : AssemblyState) (v w : ℕ) :
    (Upwind_Residual_edge true false false i j RI RJ JacI JacJ
        Jii Jij Jji Jjj s).jac i i v w = s.jac i i v w - Jii v w ∧
    (Upwind_Residual_edge true false false i j RI RJ JacI JacJ
        Jii Jij Jji Jjj s).jac i j v w = s.jac i j v w - Jij v w ∧
    (Upwind_Residual_edge true false false i j RI RJ JacI JacJ
        Jii Jij Jji Jjj s).jac j i v w = s.jac j i v w - Jji v w ∧
    (Upwind_Residual_edge true false false i j RI RJ JacI JacJ
        Jii Jij Jji Jjj s).jac j j v w = s.jac j j v w - Jjj v w := by
  simp [Upwind_Residual_edge, SubtractBlock, hij, Ne.symm hij]

theorem Upwind_edge_discrete_jac (implicit : Bool) (i j : ℕ)
    (hij : i ≠ j) (RI RJ : ℕ → ℚ) (JacI JacJ Jii Jij Jji Jjj : Blk)
    (s : AssemblyState) (v w : ℕ) :
    (Upwind_Residual_edge implicit true false i j RI RJ JacI JacJ
        Jii Jij Jji Jjj s).jac i i v w = s.jac i i v w + JacI v w ∧
    (Upwind_Residual_edge implicit true false i j RI RJ JacI JacJ
        Jii Jij Jji Jjj s).jac i j v w = s.jac i j v w - JacI v w ∧
    (Upwind_Residual_edge implicit true false i j RI RJ JacI JacJ
        Jii Jij Jji Jjj s).jac j i v w = s.jac j i v w + JacJ v w ∧
    (Upwind_Residual_edge implicit true false i j RI RJ JacI JacJ
        Jii Jij Jji Jjj s).jac j j v w = s.jac j j v w - JacJ v w := by
  simp [Upwind_Residual_edge, SubtractBlock, AddBlock, hij, Ne.symm hij]

/-- C1 (amended): per interior edge, in continuous-adjoint mode (centered or
upwind) BOTH endpoints receive a SUBTRACTED residual contribution (node1 is
not added), and when implicit the four Jacobian blocks ii/ij/ji/jj are all
subtracted; discrete-adjoint first-order upwind mode instead adds the block
`Jacobian_i` at position (i,i) and the block `Jacobian_j` at position (j,i)
while subtracting them at (i,j) and (j,j). -/
theorem C1_edge_scatter_sign_convention
    (implicit dissipation : Bool) (i j : ℕ) (hij : i ≠ j)
    (RcI RcJ RvI RvJ RI RJ : ℕ → ℚ) (JacI JacJ Jii Jij Jji Jjj : Blk)
    (s : AssemblyState) (v w : ℕ) :
    ((Centered_Residual_edge implicit dissipation i j RcI RcJ RvI RvJ
        Jii Jij Jji Jjj s).resConv i v = s.resConv i v - RcI v ∧
     (Centered_Residual_edge implicit dissipation i j RcI RcJ RvI RvJ
        Jii Jij Jji Jjj s).resConv j v = s.resConv j v - RcJ v) ∧
    ((Centered_Residual_edge true dissipation i j RcI RcJ RvI RvJ
        Jii Jij Jji Jjj s).jac i i v w = s.jac i i v w - Jii v w ∧
     (Centered_Residual_edge true dissipation i j RcI RcJ RvI RvJ
        Jii Jij Jji Jjj s).jac i j v w = s.jac i j v w - Jij v w ∧
     (Centered_Residual_edge true dissipation i j RcI RcJ RvI RvJ
        Jii Jij Jji Jjj s).jac j i v w = s.jac j i v w - Jji v w ∧
     (Centered_Residual_edge true dissipation i j RcI RcJ RvI RvJ
        Jii Jij Jji Jjj s).jac j j v w = s.jac j j v w - Jjj v w) ∧
    ((Upwind_Residual_edge implicit false false i j RI RJ JacI JacJ
        Jii Jij Jji Jjj s).resConv i v = s.resConv i v - RI v ∧
     (Upwind_Residual_edge implicit false false i j RI RJ JacI JacJ
        Jii Jij Jji Jjj s).resConv j v = s.resConv j v - RJ v) ∧
    ((Upwind_Residual_edge true false false i j RI RJ JacI JacJ
        Jii Jij Jji Jjj s).jac i i v w = s.jac i i v w - Jii v w ∧
     (Upwind_Residual_edge true false false i j RI RJ JacI JacJ
        Jii Jij Jji Jjj s).jac i j v w = s.jac i j v w - Jij v w ∧
     (Upwind_Residual_edge true false false i j RI RJ JacI JacJ
        Jii Jij Jji Jjj s).jac j i v w = s.jac j i v w - Jji v w ∧
     (Upwind_Residual_edge true false false i j RI RJ JacI JacJ
        Jii Jij Jji Jjj s).jac j j v w = s.jac j j v w - Jjj v w) ∧
    ((Upwind_Residual_edge implicit true false i j RI RJ JacI JacJ
        Jii Jij Jji Jjj s).jac i i v w = s.jac i i v w + JacI v w ∧
     (Upwind_Residual_edge implicit true false i j RI RJ JacI JacJ
        Jii Jij Jji Jjj s).jac i j v w = s.jac i j v w - JacI v w ∧
     (Upwind_Residual_edge implicit true false i j RI RJ JacI JacJ
        Jii Jij Jji Jjj s).jac j i v w = s.jac j i v w + JacJ v w ∧
     (Upwind_Residual_edge implicit true false i j RI RJ JacI JacJ
        Jii Jij Jji Jjj s).jac j j v w = s.jac j j v w - JacJ v w) :=
  ⟨Centered_edge_resConv implicit dissipation i j hij RcI RcJ RvI RvJ Jii Jij Jji Jjj s v,
   Centered_edge_jac dissipation i j hij RcI RcJ RvI RvJ Jii Jij Jji Jjj s v w,
   Upwind_edge_continuous implicit i j hij RI RJ JacI JacJ Jii Jij Jji Jjj s v,
   Upwind_edge_continuous_jac i j hij RI RJ JacI JacJ Jii Jij Jji Jjj s v w,
   Upwind_edge_discrete_jac implicit i j hij RI RJ JacI JacJ Jii Jij Jji Jjj s v w⟩

/-- C1 witness: the amended scatter-sign theorem instantiated on a concrete
edge (0,1) with unit contributions against the zero assembly state. -/
theorem C1_edge_scatter_sign_convention_witness :
    (0 : ℕ) ≠ 1 ∧
    ((Centered_Residual_edge true true 0 1 oneVec oneVec oneVec oneVec
        oneBlk oneBlk oneBlk oneBlk zeroAsm).resConv 0 0 =
      zeroAsm.resConv 0 0 - oneVec 0 ∧
     (Centered_Residual_edge true true 0 1 oneVec oneVec oneVec oneVec
        oneBlk oneBlk oneBlk oneBlk zeroAsm).resConv 1 0 =
      zeroAsm.resConv 1 0 - oneVec 0) :=
  ⟨by decide,
   (C1_edge_scatter_sign_convention true true 0 1 (by decide)
      oneVec oneVec oneVec oneVec oneVec oneVec oneBlk oneBlk oneBlk oneBlk
      oneBlk oneBlk zeroAsm 0 0).1⟩

/-- C1 counterexample: on the concrete edge (0,1) with unit contributions and
zero initial accumulators, node1's convective accumulator after the centered
edge visit is `0 − 1 = −1`, not the `0 + 1` that the claim's "node1 receives
an added residual contribution" would give. -/
theorem C1_node1_not_added_counterexample :
    ¬ ((Centered_Residual_edge true true 0 1 oneVec oneVec oneVec oneVec
          oneBlk oneBlk oneBlk oneBlk zeroAsm).resConv 1 0 =
        zeroAsm.resConv 1 0 + oneVec 0) := by
  simp [Centered_Residual_edge, subRes, zeroAsm, oneVec]
  norm_num

/-! ### Generic loop lemmas -/

theorem foldRange_preserve {σ α : Type} (f : ℕ → σ → σ) (read : σ → α)
    (h : ∀ q s', read (f q s') = read s') :
    ∀ (n : ℕ) (s : σ), read (foldRange n f s) = read s := by
  intro n
  induction n with
  | zero => intro s; rfl
  | succ m ih => intro s; rw [foldRange_succ, h, ih]

theorem foldRange_preserveLt {σ α : Type} (f : ℕ → σ → σ) (read : σ → α)
    (p : ℕ) (h : ∀ q s', q ≠ p → read (f q s') = read s') :
    ∀ n, n ≤ p → ∀ s, read (foldRange n f s) = read s := by
  intro n
  induction n with
  | zero => intro _ s; rfl
  | succ m ih =>
    intro hn s
    rw [foldRange_succ, h m _ (by omega), ih (by omega)]

theorem foldRange_once {σ α : Type} (f : ℕ → σ → σ) (read : σ → α)
    (p : ℕ) (g : α → α)
    (hset : ∀ s', read (f p s') = g (read s'))
    (hskip : ∀ q s', q ≠ p → read (f q s') = read s') :
    ∀ n, p < n → ∀ s, read (foldRange n f s) = g (read s) := by
  intro n
  induction n with
  | zero => intro h; omega
  | succ m ih =>
    intro hp s
    rw [foldRange_succ]
    rcases Nat.lt_succ_iff_lt_or_eq.mp hp with h | h
    · rw [hskip m _ (by omega)]
      exact ih h s
    · subst h
      rw [hset]
      exact congrArg g (foldRange_preserveLt f read p hskip p (le_refl p) s)

theorem foldRange_invariant {σ : Type} (P : σ → Prop) (f : ℕ → σ → σ)
    (hstep : ∀ q s', P s' → P (f q s')) :
    ∀ (n : ℕ) (s : σ), P s → P (foldRange n f s) := by
  intro n
  induction n with
  | zero => intro s h0; exact h0
  | succ m ih =>
    intro s h0
    rw [foldRange_succ]
    exact hstep m _ (ih s h0)

/-- Cells `q*nVar .. q*nVar+nVar-1` of different points are disjoint. -/
theorem blockIndex_disjoint {p q v nVar : ℕ} (hv : v < nVar) (hpq : q ≠ p) :
    p * nVar + v < q * nVar ∨ q * nVar + nVar ≤ p * nVar + v := by
  rcases Nat.lt_or_ge p q with h | h
  · left
    calc p * nVar + v < p * nVar + nVar := by omega
      _ = (p + 1) * nVar := by ring
      _ ≤ q * nVar := Nat.mul_le_mul_right _ (by omega)
  · right
    have hqp : q < p := by omega
    calc q * nVar + nVar = (q + 1) * nVar := by ring
      _ ≤ p * nVar := Nat.mul_le_mul_right _ (by omega)
      _ ≤ p * nVar + v := by omega

/-! ### Implicit-Euler build/solve/update lemmas (C2) -/

theorem implicitBuild_rhs (geo : GeoFlow) (ns : NodeState) (sys0 : LinSys)
    (p v : ℕ) (hp : p < geo.nPointDomain) (hv : v < geo.nVar) :
    (foldRange geo.nPointDomain (implicitBuildStep geo ns) sys0).rhs
      (p * geo.nVar + v) = -(totalRes ns p v) := by
  refine foldRange_once (implicitBuildStep geo ns)
    (fun (st : LinSys) => st.rhs (p * geo.nVar + v)) p
    (fun _ => -(totalRes ns p v)) ?_ ?_ geo.nPointDomain hp sys0
  · intro s'
    simpa [implicitBuildStep] using
      writeBlock_in s'.rhs (p * geo.nVar) geo.nVar _ v hv
  · intro q s' hqp
    simpa [implicitBuildStep] using
      writeBlock_out s'.rhs (q * geo.nVar) geo.nVar _ (p * geo.nVar + v)
        (blockIndex_disjoint hv hqp)

theorem implicitBuild_xsol (geo : GeoFlow) (ns : NodeState) (sys0 : LinSys)
    (p v : ℕ) (hp : p < geo.nPointDomain) (hv : v < geo.nVar) :
    (foldRange geo.nPointDomain (implicitBuildStep geo ns) sys0).xsol
      (p * geo.nVar + v) = 0 := by
  refine foldRange_once (implicitBuildStep geo ns)
    (fun (st : LinSys) => st.xsol (p * geo.nVar + v)) p
    (fun _ => 0) ?_ ?_ geo.nPointDomain hp sys0
  · intro s'
    simpa [implicitBuildStep] using
      writeBlock_in s'.xsol (p * geo.nVar) geo.nVar _ v hv
  · intro q s' hqp
    simpa [implicitBuildStep] using
      writeBlock_out s'.xsol (q * geo.nVar) geo.nVar _ (p * geo.nVar + v)
        (blockIndex_disjoint hv hqp)

theorem implicitBuild_jacDiag (geo : GeoFlow) (ns : NodeState) (sys0 : LinSys)
    (p v : ℕ) (hp : p < geo.nPointDomain) (hv : v < geo.nVar) :
    (foldRange geo.nPointDomain (implicitBuildStep geo ns) sys0).jac p p v v =
      sys0.jac p p v v + geo.volume p / geo.deltaTime p := by
  refine foldRange_once (implicitBuildStep geo ns)
    (fun (st : LinSys) => st.jac p p v v) p
    (fun x => x + geo.volume p / geo.deltaTime p) ?_ ?_ geo.nPointDomain hp sys0
  · intro s'
    simp [implicitBuildStep, AddVal2Diag, hv]
  · intro q s' hqp
    simp [implicitBuildStep, AddVal2Diag, Ne.symm hqp]

theorem ghostInit_preserves_owned (geo : GeoFlow) (sys1 : LinSys)
    (p v : ℕ) (hp : p < geo.nPointDomain) (hv : v < geo.nVar) :
    (foldRange (geo.nPoint - geo.nPointDomain)
        (fun i => ghostInitStep geo.nVar (geo.nPointDomain + i)) sys1).rhs
      (p * geo.nVar + v) = sys1.rhs (p * geo.nVar + v) ∧
    (foldRange (geo.nPoint - geo.nPointDomain)
        (fun i => ghostInitStep geo.nVar (geo.nPointDomain + i)) sys1).xsol
      (p * geo.nVar + v) = sys1.xsol (p * geo.nVar + v) := by
  constructor
  · refine foldRange_preserve _ (fun (st : LinSys) => st.rhs (p * geo.nVar + v))
      ?_ _ sys1
    intro q s'
    simpa [ghostInitStep] using
      writeBlock_out s'.rhs ((geo.nPointDomain + q) * geo.nVar) geo.nVar _
        (p * geo.nVar + v) (blockIndex_disjoint hv (by omega))
  · refine foldRange_preserve _ (fun (st : LinSys) => st.xsol (p * geo.nVar + v))
      ?_ _ sys1
    intro q s'
    simpa [ghostInitStep] using
      writeBlock_out s'.xsol ((geo.nPointDomain + q) * geo.nVar) geo.nVar _
        (p * geo.nVar + v) (blockIndex_disjoint hv (by omega))

theorem ghostInit_zeroes_halo (geo : GeoFlow) (sys1 : LinSys)
    (q v : ℕ) (hq1 : geo.nPointDomain ≤ q) (hq2 : q < geo.nPoint)
    (hv : v < geo.nVar) :
    (foldRange (geo.nPoint - geo.nPointDomain)
        (fun i => ghostInitStep geo.nVar (geo.nPointDomain + i)) sys1).rhs
      (q * geo.nVar + v) = 0 ∧
    (foldRange (geo.nPoint - geo.nPointDomain)
        (fun i => ghostInitStep geo.nVar (geo.nPointDomain + i)) sys1).xsol
      (q * geo.nVar + v) = 0 := by
  have hi : q - geo.nPointDomain < geo.nPoint - geo.nPointDomain := by omega
  have hqi : geo.nPointDomain + (q - geo.nPointDomain) = q := by omega
  constructor
  · refine foldRange_once _ (fun (st : LinSys) => st.rhs (q * geo.nVar + v))
      (q - geo.nPointDomain) (fun _ => 0) ?_ ?_ _ hi sys1
    · intro s'
      have h := writeBlock_in s'.rhs (q * geo.nVar) geo.nVar (fun _ => 0) v hv
      simpa [ghostInitStep, hqi] using h
    · intro i s' hiq
      have hne : geo.nPointDomain + i ≠ q := by omega
      simpa [ghostInitStep] using
        writeBlock_out s'.rhs ((geo.nPointDomain + i) * geo.nVar) geo.nVar _
          (q * geo.nVar + v) (blockIndex_disjoint hv hne)
  · refine foldRange_once _ (fun (st : LinSys) => st.xsol (q * geo.nVar + v))
      (q - geo.nPointDomain) (fun _ => 0) ?_ ?_ _ hi sys1
    · intro s'
      have h := writeBlock_in s'.xsol (q * geo.nVar) geo.nVar (fun _ => 0) v hv
      simpa [ghostInitStep, hqi] using h
    · intro i s' hiq
      have hne : geo.nPointDomain + i ≠ q := by omega
      simpa [ghostInitStep] using
        writeBlock_out s'.xsol ((geo.nPointDomain + i) * geo.nVar) geo.nVar _
          (q * geo.nVar + v) (blockIndex_disjoint hv hne)

theorem ghostInit_preserves_jac (geo : GeoFlow) (sys1 : LinSys)
    (a b v w : ℕ) :
    (foldRange (geo.nPoint - geo.nPointDomain)
        (fun i => ghostInitStep geo.nVar (geo.nPointDomain + i)) sys1).jac
      a b v w = sys1.jac a b v w :=
  foldRange_preserve (fun i => ghostInitStep geo.nVar (geo.nPointDomain + i))
    (fun (st : LinSys) => st.jac a b v w) (fun q s' => rfl) _ sys1

theorem addSolution_final (nVar n : ℕ) (xs : ℕ → ℚ) (sol0 : Field2)
    (p v : ℕ) (hp : p < n) (hv : v < nVar) :
    foldRange n (addSolutionStep nVar xs) sol0 p v =
      sol0 p v + xs (p * nVar + v) := by
  refine foldRange_once (addSolutionStep nVar xs)
    (fun (sol : Field2) => sol p v) p
    (fun x => x + xs (p * nVar + v)) ?_ ?_ n hp sol0
  · intro s'; simp [addSolutionStep, hv]
  · intro q s' hqp; simp [addSolutionStep, Ne.symm hqp]

theorem setSolution_final (nVar n : ℕ) (xs : ℕ → ℚ) (sol0 : Field2)
    (p v : ℕ) (hp : p < n) (hv : v < nVar) :
    foldRange n (setSolutionStep nVar xs) sol0 p v = xs (p * nVar + v) := by
  refine foldRange_once (setSolutionStep nVar xs)
    (fun (sol : Field2) => sol p v) p
    (fun _ => xs (p * nVar + v)) ?_ ?_ n hp sol0
  · intro s'; simp [setSolutionStep, hv]
  · intro q s' hqp; simp [setSolutionStep, Ne.symm hqp]

/-- C2: one implicit-Euler iteration (i) adds `Volume/Δt` to each owned
node's diagonal Jacobian entries, (ii) sets the right-hand side at each owned
node to minus the sum of the convective, viscous, source and truncation-error
residuals with initial guess zero, (iii) zeroes the right-hand-side and
solution buffers at every halo node, (iv) dispatches to exactly the one of
the four linear-solve strategies selected by the configuration (SGS, LU-SGS,
BiCGSTAB, flexible GMRES with the configured preconditioner), and (v) adds
the resulting increment to each owned node's adjoint state. -/
theorem C2_ImplicitEuler_Iteration (geo : GeoFlow) (cfg : LinConfig)
    (S : LinSolvers) (ns : NodeState) (sys0 : LinSys) (p q v : ℕ)
    (hp : p < geo.nPointDomain) (hv : v < geo.nVar)
    (hq1 : geo.nPointDomain ≤ q) (hq2 : q < geo.nPoint) :
    ((ImplicitEuler_Iteration geo cfg S ns sys0).2.1.jac p p v v =
        sys0.jac p p v v + geo.volume p / geo.deltaTime p) ∧
    ((ImplicitEuler_Iteration geo cfg S ns sys0).2.1.rhs (p * geo.nVar + v) =
        -(ns.resConv p v + ns.resVisc p v + ns.resSour p v + ns.truncErr p v)) ∧
    ((ImplicitEuler_Iteration geo cfg S ns sys0).2.1.xsol (p * geo.nVar + v) = 0) ∧
    ((ImplicitEuler_Iteration geo cfg S ns sys0).2.1.rhs (q * geo.nVar + v) = 0) ∧
    ((ImplicitEuler_Iteration geo cfg S ns sys0).2.1.xsol (q * geo.nVar + v) = 0) ∧
    ((ImplicitEuler_Iteration geo cfg S ns sys0).2.2 =
        dispatchSolve cfg S (ImplicitEuler_Iteration geo cfg S ns sys0).2.1) ∧
    (cfg.kind = KindLinearSolver.SYM_GAUSS_SEIDEL →
      (ImplicitEuler_Iteration geo cfg S ns sys0).2.2 =
        S.sgs (ImplicitEuler_Iteration geo cfg S ns sys0).2.1.jac
          (ImplicitEuler_Iteration geo cfg S ns sys0).2.1.rhs
          (ImplicitEuler_Iteration geo cfg S ns sys0).2.1.xsol
          cfg.linErr cfg.linIter) ∧
    (cfg.kind = KindLinearSolver.LU_SGS →
      (ImplicitEuler_Iteration geo cfg S ns sys0).2.2 =
        S.lusgs (ImplicitEuler_Iteration geo cfg S ns sys0).2.1.jac
          (ImplicitEuler_Iteration geo cfg S ns sys0).2.1.rhs
          (ImplicitEuler_Iteration geo cfg S ns sys0).2.1.xsol) ∧
    (cfg.kind = KindLinearSolver.BCGSTAB →
      (ImplicitEuler_Iteration geo cfg S ns sys0).2.2 =
        S.bcgstab cfg.prec (ImplicitEuler_Iteration geo cfg S ns sys0).2.1.jac
          (ImplicitEuler_Iteration geo cfg S ns sys0).2.1.rhs
          (ImplicitEuler_Iteration geo cfg S ns sys0).2.1.xsol
          cfg.linErr cfg.linIter) ∧
    (cfg.kind = KindLinearSolver.GMRES →
      (ImplicitEuler_Iteration geo cfg S ns sys0).2.2 =
        S.gmres cfg.prec (ImplicitEuler_Iteration geo cfg S ns sys0).2.1.jac
          (ImplicitEuler_Iteration geo cfg S ns sys0).2.1.rhs
          (ImplicitEuler_Iteration geo cfg S ns sys0).2.1.xsol
          cfg.linErr cfg.linIter) ∧
    ((ImplicitEuler_Iteration geo cfg S ns sys0).1.solution p v =
        ns.solution p v +
          (ImplicitEuler_Iteration geo cfg S ns sys0).2.2 (p * geo.nVar + v)) := by
  have hsys : (ImplicitEuler_Iteration geo cfg S ns sys0).2.1 =
      foldRange (geo.nPoint - geo.nPointDomain)
        (fun i => ghostInitStep geo.nVar (geo.nPointDomain + i))
        (foldRange geo.nPointDomain (implicitBuildStep geo ns) sys0) := rfl
  have hsol : (ImplicitEuler_Iteration geo cfg S ns sys0).1.solution =
      foldRange geo.nPointDomain
        (addSolutionStep geo.nVar (ImplicitEuler_Iteration geo cfg S ns sys0).2.2)
        ns.solution := rfl
  refine ⟨?_, ?_, ?_, ?_, ?_, rfl, ?_, ?_, ?_, ?_, ?_⟩
  · rw [hsys, ghostInit_preserves_jac]
    exact implicitBuild_jacDiag geo ns sys0 p v hp hv
  · rw [hsys, (ghostInit_preserves_owned geo _ p v hp hv).1]
    exact implicitBuild_rhs geo ns sys0 p v hp hv
  · rw [hsys, (ghostInit_preserves_owned geo _ p v hp hv).2]
    exact implicitBuild_xsol geo ns sys0 p v hp hv
  · rw [hsys]
    exact (ghostInit_zeroes_halo geo _ q v hq1 hq2 hv).1
  · rw [hsys]
    exact (ghostInit_zeroes_halo geo _ q v hq1 hq2 hv).2
  · intro hk
    show dispatchSolve cfg S _ = _
    rw [dispatchSolve, hk]
    exact rfl
  · intro hk
    show dispatchSolve cfg S _ = _
    rw [dispatchSolve, hk]
    exact rfl
  · intro hk
    show dispatchSolve cfg S _ = _
    rw [dispatchSolve, hk]
    exact rfl
  · intro hk
    show dispatchSolve cfg S _ = _
    rw [dispatchSolve, hk]
    exact rfl
  · rw [hsol]
    exact addSolution_final geo.nVar geo.nPointDomain _ ns.solution p v hp hv

/-- C2 witness: the implicit-Euler theorem instantiated on the two-point,
one-variable geometry `geo1` (point 0 owned, point 1 halo). -/
theorem C2_ImplicitEuler_Iteration_witness :
    ((ImplicitEuler_Iteration geo1 cfg1 solversId ns1 sysZero).2.1.jac 0 0 0 0 =
        sysZero.jac 0 0 0 0 + geo1.volume 0 / geo1.deltaTime 0) ∧
    ((ImplicitEuler_Iteration geo1 cfg1 solversId ns1 sysZero).2.1.rhs
        (0 * geo1.nVar + 0) =
        -(ns1.resConv 0 0 + ns1.resVisc 0 0 + ns1.resSour 0 0 + ns1.truncErr 0 0)) ∧
    ((ImplicitEuler_Iteration geo1 cfg1 solversId ns1 sysZero).2.1.xsol
        (0 * geo1.nVar + 0) = 0) ∧
    ((ImplicitEuler_Iteration geo1 cfg1 solversId ns1 sysZero).2.1.rhs
        (1 * geo1.nVar + 0) = 0) ∧
    ((ImplicitEuler_Iteration geo1 cfg1 solversId ns1 sysZero).2.1.xsol
        (1 * geo1.nVar + 0) = 0) ∧
    ((ImplicitEuler_Iteration geo1 cfg1 solversId ns1 sysZero).2.2 =
        dispatchSolve cfg1 solversId
          (ImplicitEuler_Iteration geo1 cfg1 solversId ns1 sysZero).2.1) ∧
    (cfg1.kind = KindLinearSolver.SYM_GAUSS_SEIDEL →
      (ImplicitEuler_Iteration geo1 cfg1 solversId ns1 sysZero).2.2 =
        solversId.sgs (ImplicitEuler_Iteration geo1 cfg1 solversId ns1 sysZero).2.1.jac
          (ImplicitEuler_Iteration geo1 cfg1 solversId ns1 sysZero).2.1.rhs
          (ImplicitEuler_Iteration geo1 cfg1 solversId ns1 sysZero).2.1.xsol
          cfg1.linErr cfg1.linIter) ∧
    (cfg1.kind = KindLinearSolver.LU_SGS →
      (ImplicitEuler_Iteration geo1 cfg1 solversId ns1 sysZero).2.2 =
        solversId.lusgs (ImplicitEuler_Iteration geo1 cfg1 solversId ns1 sysZero).2.1.jac
          (ImplicitEuler_Iteration geo1 cfg1 solversId ns1 sysZero).2.1.rhs
          (ImplicitEuler_Iteration geo1 cfg1 solversId ns1 sysZero).2.1.xsol) ∧
    (cfg1.kind = KindLinearSolver.BCGSTAB →
      (ImplicitEuler_Iteration geo1 cfg1 solversId ns1 sysZero).2.2 =
        solversId.bcgstab cfg1.prec
          (ImplicitEuler_Iteration geo1 cfg1 solversId ns1 sysZero).2.1.jac
          (ImplicitEuler_Iteration geo1 cfg1 solversId ns1 sysZero).2.1.rhs
          (ImplicitEuler_Iteration geo1 cfg1 solversId ns1 sysZero).2.1.xsol
          cfg1.linErr cfg1.linIter) ∧
    (cfg1.kind = KindLinearSolver.GMRES →
      (ImplicitEuler_Iteration geo1 cfg1 solversId ns1 sysZero).2.2 =
        solversId.gmres cfg1.prec
          (ImplicitEuler_Iteration geo1 cfg1 solversId ns1 sysZero).2.1.jac
          (ImplicitEuler_Iteration geo1 cfg1 solversId ns1 sysZero).2.1.rhs
          (ImplicitEuler_Iteration geo1 cfg1 solversId ns1 sysZero).2.1.xsol
          cfg1.linErr cfg1.linIter) ∧
    ((ImplicitEuler_Iteration geo1 cfg1 solversId ns1 sysZero).1.solution 0 0 =
        ns1.solution 0 0 +
          (ImplicitEuler_Iteration geo1 cfg1 solversId ns1 sysZero).2.2
            (0 * geo1.nVar + 0)) :=
  C2_ImplicitEuler_Iteration geo1 cfg1 solversId ns1 sysZero 0 1 0
    (by decide) (by decide) (by decide) (by decide)

/-! ### Discrete-adjoint solve lemmas (C3) -/

theorem objBuild_rhs (geo : GeoFlow) (objFuncSource : Field2) (sys0 : LinSys)
    (p v : ℕ) (hp : p < geo.nPointDomain) (hv : v < geo.nVar) :
    (foldRange geo.nPointDomain (objSourceStep geo.nVar objFuncSource) sys0).rhs
      (p * geo.nVar + v) = objFuncSource p v := by
  refine foldRange_once (objSourceStep geo.nVar objFuncSource)
    (fun (st : LinSys) => st.rhs (p * geo.nVar + v)) p
    (fun _ => objFuncSource p v) ?_ ?_ geo.nPointDomain hp sys0
  · intro s'
    simpa [objSourceStep] using
      writeBlock_in s'.rhs (p * geo.nVar) geo.nVar _ v hv
  · intro q s' hqp
    simpa [objSourceStep] using
      writeBlock_out s'.rhs (q * geo.nVar) geo.nVar _ (p * geo.nVar + v)
        (blockIndex_disjoint hv hqp)

theorem objBuild_xsol (geo : GeoFlow) (objFuncSource : Field2) (sys0 : LinSys)
    (p v : ℕ) (hp : p < geo.nPointDomain) (hv : v < geo.nVar) :
    (foldRange geo.nPointDomain (objSourceStep geo.nVar objFuncSource) sys0).xsol
      (p * geo.nVar + v) = 0 := by
  refine foldRange_once (objSourceStep geo.nVar objFuncSource)
    (fun (st : LinSys) => st.xsol (p * geo.nVar + v)) p
    (fun _ => 0) ?_ ?_ geo.nPointDomain hp sys0
  · intro s'
    simpa [objSourceStep] using
      writeBlock_in s'.xsol (p * geo.nVar) geo.nVar _ v hv
  · intro q s' hqp
    simpa [objSourceStep] using
      writeBlock_out s'.xsol (q * geo.nVar) geo.nVar _ (p * geo.nVar + v)
        (blockIndex_disjoint hv hqp)

/-- C3: the discrete-adjoint linear solve uses the per-node stored
objective-function source vector as the right-hand side (not the assembled
residual, not negated) with zero initial guess, runs the same linear-solve
dispatch, and then OVERWRITES each owned node's adjoint state with
the solution, in contrast to the implicit-Euler iteration, which adds the
increment to the previous state. -/
theorem C3_Solve_LinearSystem (geo : GeoFlow) (cfg : LinConfig)
    (S : LinSolvers) (objFuncSource : Field2) (ns : NodeState) (sys0 : LinSys)
    (p v : ℕ) (hp : p < geo.nPointDomain) (hv : v < geo.nVar) :
    ((Solve_LinearSystem geo cfg S objFuncSource ns sys0).2.1.rhs
        (p * geo.nVar + v) = objFuncSource p v) ∧
    ((Solve_LinearSystem geo cfg S objFuncSource ns sys0).2.1.xsol
        (p * geo.nVar + v) = 0) ∧
    ((Solve_LinearSystem geo cfg S objFuncSource ns sys0).2.2 =
        dispatchSolve cfg S
          (Solve_LinearSystem geo cfg S objFuncSource ns sys0).2.1) ∧
    ((Solve_LinearSystem geo cfg S objFuncSource ns sys0).1.solution p v =
        (Solve_LinearSystem geo cfg S objFuncSource ns sys0).2.2
          (p * geo.nVar + v)) ∧
    ((ImplicitEuler_Iteration geo cfg S ns sys0).1.solution p v =
        ns.solution p v +
          (ImplicitEuler_Iteration geo cfg S ns sys0).2.2 (p * geo.nVar + v)) := by
  have hsys : (Solve_LinearSystem geo cfg S objFuncSource ns sys0).2.1 =
      foldRange geo.nPointDomain (objSourceStep geo.nVar objFuncSource) sys0 := rfl
  have hsol : (Solve_LinearSystem geo cfg S objFuncSource ns sys0).1.solution =
      foldRange geo.nPointDomain
        (setSolutionStep geo.nVar
          (Solve_LinearSystem geo cfg S objFuncSource ns sys0).2.2)
        ns.solution := rfl
  have hisol : (ImplicitEuler_Iteration geo cfg S ns sys0).1.solution =
      foldRange geo.nPointDomain
        (addSolutionStep geo.nVar (ImplicitEuler_Iteration geo cfg S ns sys0).2.2)
        ns.solution := rfl
  refine ⟨?_, ?_, rfl, ?_, ?_⟩
  · rw [hsys]; exact objBuild_rhs geo objFuncSource sys0 p v hp hv
  · rw [hsys]; exact objBuild_xsol geo objFuncSource sys0 p v hp hv
  · rw [hsol]
    exact setSolution_final geo.nVar geo.nPointDomain _ ns.solution p v hp hv
  · rw [hisol]
    exact addSolution_final geo.nVar geo.nPointDomain _ ns.solution p v hp hv

/-- C3 witness: the discrete-adjoint solve theorem instantiated on `geo1`
with the unit objective-source field. -/
theorem C3_Solve_LinearSystem_witness :
    ((Solve_LinearSystem geo1 cfg1 solversId oneField ns1 sysZero).2.1.rhs
        (0 * geo1.nVar + 0) = oneField 0 0) ∧
    ((Solve_LinearSystem geo1 cfg1 solversId oneField ns1 sysZero).2.1.xsol
        (0 * geo1.nVar + 0) = 0) ∧
    ((Solve_LinearSystem geo1 cfg1 solversId oneField ns1 sysZero).2.2 =
        dispatchSolve cfg1 solversId
          (Solve_LinearSystem geo1 cfg1 solversId oneField ns1 sysZero).2.1) ∧
    ((Solve_LinearSystem geo1 cfg1 solversId oneField ns1 sysZero).1.solution 0 0 =
        (Solve_LinearSystem geo1 cfg1 solversId oneField ns1 sysZero).2.2
          (0 * geo1.nVar + 0)) ∧
    ((ImplicitEuler_Iteration geo1 cfg1 solversId ns1 sysZero).1.solution 0 0 =
        ns1.solution 0 0 +
          (ImplicitEuler_Iteration geo1 cfg1 solversId ns1 sysZero).2.2
            (0 * geo1.nVar + 0)) :=
  C3_Solve_LinearSystem geo1 cfg1 solversId oneField ns1 sysZero 0 0
    (by decide) (by decide)

/-! ### Residual-accumulator lifecycle lemmas (C6) -/

theorem preproc_resConv_zero (d : Bool) (n : ℕ) (ns : NodeState) (p v : ℕ)
    (hp : p < n) : (foldRange n (preprocResInitStep d) ns).resConv p v = 0 := by
  refine foldRange_once (preprocResInitStep d)
    (fun (s : NodeState) => s.resConv p v) p (fun _ => 0) ?_ ?_ n hp ns
  · intro s'; simp [preprocResInitStep]
  · intro q s' hqp; simp [preprocResInitStep, Ne.symm hqp]

theorem preproc_resSour_zero (d : Bool) (n : ℕ) (ns : NodeState) (p v : ℕ)
    (hp : p < n) : (foldRange n (preprocResInitStep d) ns).resSour p v = 0 := by
  refine foldRange_once (preprocResInitStep d)
    (fun (s : NodeState) => s.resSour p v) p (fun _ => 0) ?_ ?_ n hp ns
  · intro s'; simp [preprocResInitStep]
  · intro q s' hqp; simp [preprocResInitStep, Ne.symm hqp]

theorem preproc_resVisc_zero (n : ℕ) (ns : NodeState) (p v : ℕ)
    (hp : p < n) : (foldRange n (preprocResInitStep true) ns).resVisc p v = 0 := by
  refine foldRange_once (preprocResInitStep true)
    (fun (s : NodeState) => s.resVisc p v) p (fun _ => 0) ?_ ?_ n hp ns
  · intro s'; simp [preprocResInitStep]
  · intro q s' hqp; simp [preprocResInitStep, Ne.symm hqp]

theorem preproc_resVisc_kept (n : ℕ) (ns : NodeState) (p v : ℕ) :
    (foldRange n (preprocResInitStep false) ns).resVisc p v = ns.resVisc p v := by
  refine foldRange_preserve (preprocResInitStep false)
    (fun (s : NodeState) => s.resVisc p v) ?_ n ns
  intro q s'; simp [preprocResInitStep]

/-- C6 (amended): the time-integration steps CONSUME the residual accumulators
but do not zero them — one explicit-Euler, Runge-Kutta or implicit-Euler
iteration leaves every node convective/viscous/source accumulator exactly as
it found it — and the accumulators are instead reset to zero by the
per-iteration `Preprocessing` (the viscous accumulator only when the
Runge-Kutta beta coefficient is nonzero or the scheme is implicit). -/
theorem C6_residual_accumulator_lifecycle (geo : GeoFlow) (ns : NodeState)
    (alpha : ℚ) (getRes : Field2) (cfg : LinConfig) (S : LinSolvers)
    (sys0 : LinSys) (betaRKNonzero implicit : Bool) (p v : ℕ)
    (hp : p < geo.nPoint) :
    ((ExplicitEuler_Iteration geo ns).resConv p v = ns.resConv p v ∧
     (ExplicitEuler_Iteration geo ns).resVisc p v = ns.resVisc p v ∧
     (ExplicitEuler_Iteration geo ns).resSour p v = ns.resSour p v) ∧
    ((ExplicitRK_Iteration geo alpha getRes ns).resConv p v = ns.resConv p v ∧
     (ExplicitRK_Iteration geo alpha getRes ns).resVisc p v = ns.resVisc p v ∧
     (ExplicitRK_Iteration geo alpha getRes ns).resSour p v = ns.resSour p v) ∧
    ((ImplicitEuler_Iteration geo cfg S ns sys0).1.resConv p v = ns.resConv p v ∧
     (ImplicitEuler_Iteration geo cfg S ns sys0).1.resVisc p v = ns.resVisc p v ∧
     (ImplicitEuler_Iteration geo cfg S ns sys0).1.resSour p v = ns.resSour p v) ∧
    ((Preprocessing_ResInit geo betaRKNonzero implicit ns).resConv p v = 0 ∧
     (Preprocessing_ResInit geo betaRKNonzero implicit ns).resSour p v = 0) ∧
    ((betaRKNonzero || implicit) = true →
      (Preprocessing_ResInit geo betaRKNonzero implicit ns).resVisc p v = 0) ∧
    ((betaRKNonzero || implicit) = false →
      (Preprocessing_ResInit geo betaRKNonzero implicit ns).resVisc p v =
        ns.resVisc p v) := by
  refine ⟨⟨rfl, rfl, rfl⟩, ⟨rfl, rfl, rfl⟩, ⟨rfl, rfl, rfl⟩, ⟨?_, ?_⟩, ?_, ?_⟩
  · exact preproc_resConv_zero _ geo.nPoint ns p v hp
  · exact preproc_resSour_zero _ geo.nPoint ns p v hp
  · intro hd
    show (foldRange geo.nPoint (preprocResInitStep _) ns).resVisc p v = 0
    rw [hd]
    exact preproc_resVisc_zero geo.nPoint ns p v hp
  · intro hd
    show (foldRange geo.nPoint (preprocResInitStep _) ns).resVisc p v = _
    rw [hd]
    exact preproc_resVisc_kept geo.nPoint ns p v

/-- C6 witness: the lifecycle theorem instantiated on `geo1`/`ns1` at
point 0 (with the Runge-Kutta beta coefficient nonzero). -/
theorem C6_residual_accumulator_lifecycle_witness :
    ((ExplicitEuler_Iteration geo1 ns1).resConv 0 0 = ns1.resConv 0 0 ∧
     (ExplicitEuler_Iteration geo1 ns1).resVisc 0 0 = ns1.resVisc 0 0 ∧
     (ExplicitEuler_Iteration geo1 ns1).resSour 0 0 = ns1.resSour 0 0) ∧
    ((ExplicitRK_Iteration geo1 1 oneField ns1).resConv 0 0 = ns1.resConv 0 0 ∧
     (ExplicitRK_Iteration geo1 1 oneField ns1).resVisc 0 0 = ns1.resVisc 0 0 ∧
     (ExplicitRK_Iteration geo1 1 oneField ns1).resSour 0 0 = ns1.resSour 0 0) ∧
    ((ImplicitEuler_Iteration geo1 cfg1 solversId ns1 sysZero).1.resConv 0 0 =
        ns1.resConv 0 0 ∧
     (ImplicitEuler_Iteration geo1 cfg1 solversId ns1 sysZero).1.resVisc 0 0 =
        ns1.resVisc 0 0 ∧
     (ImplicitEuler_Iteration geo1 cfg1 solversId ns1 sysZero).1.resSour 0 0 =
        ns1.resSour 0 0) ∧
    ((Preprocessing_ResInit geo1 true false ns1).resConv 0 0 = 0 ∧
     (Preprocessing_ResInit geo1 true false ns1).resSour 0 0 = 0) ∧
    ((true || false) = true →
      (Preprocessing_ResInit geo1 true false ns1).resVisc 0 0 = 0) ∧
    ((true || false) = false →
      (Preprocessing_ResInit geo1 true false ns1).resVisc 0 0 =
        ns1.resVisc 0 0) :=
  C6_residual_accumulator_lifecycle geo1 ns1 1 oneField cfg1 solversId sysZero
    true false 0 0 (by decide)

/-- C6 counterexample: on `geo1` with unit accumulators, the convective
accumulator of the owned node still holds `1` (not `0`) after one explicit
Euler iteration completes, so the time-integration step does not reset the
residual accumulators. -/
theorem C6_time_step_does_not_zero_counterexample :
    ¬ ((ExplicitEuler_Iteration geo1 ns1).resConv 0 0 = 0) := by
  simp [ExplicitEuler_Iteration, ns1]


/-- C4: for every compressible TOTAL_CONDITIONS inlet state, the exterior
velocity magnitude is the `+` root of the quadratic `aa·V² + bb·V + cc`
built from the specified total conditions, flow direction and extrapolated
Riemann invariant, i.e. `V = (-bb + sqrt(max(0, bb² - 4·aa·cc)))/(2·aa)`;
the magnitude is then floored at 0, and the squared Mach number is capped at
1 before the exterior conservative state is rebuilt (the capped value is
`min 1 (V²/c²)` and the velocity actually used is recomputed from it). -/
theorem C4_BC_Inlet_totalConditions_root_floor_cap (nDim : ℕ) (sq : ℚ → ℚ)
    (Gamma GasConstant P_Total T_Total : ℚ)
    (FlowDir UnitaryNormal U_domain : ℕ → ℚ) :
    ((BC_Inlet_TotalConditions nDim sq Gamma GasConstant P_Total T_Total
        FlowDir UnitaryNormal U_domain).velMagRoot =
      (-(BC_Inlet_TotalConditions nDim sq Gamma GasConstant P_Total T_Total
            FlowDir UnitaryNormal U_domain).bb +
          sq (max 0
            ((BC_Inlet_TotalConditions nDim sq Gamma GasConstant P_Total T_Total
                FlowDir UnitaryNormal U_domain).bb *
              (BC_Inlet_TotalConditions nDim sq Gamma GasConstant P_Total T_Total
                FlowDir UnitaryNormal U_domain).bb -
              4 * (BC_Inlet_TotalConditions nDim sq Gamma GasConstant P_Total T_Total
                    FlowDir UnitaryNormal U_domain).aa *
                (BC_Inlet_TotalConditions nDim sq Gamma GasConstant P_Total T_Total
                    FlowDir UnitaryNormal U_domain).cc))) /
        (2 * (BC_Inlet_TotalConditions nDim sq Gamma GasConstant P_Total T_Total
                FlowDir UnitaryNormal U_domain).aa)) ∧
    ((BC_Inlet_TotalConditions nDim sq Gamma GasConstant P_Total T_Total
        FlowDir UnitaryNormal U_domain).velMagFloor =
      max 0 (BC_Inlet_TotalConditions nDim sq Gamma GasConstant P_Total T_Total
          FlowDir UnitaryNormal U_domain).velMagRoot) ∧
    (0 ≤ (BC_Inlet_TotalConditions nDim sq Gamma GasConstant P_Total T_Total
        FlowDir UnitaryNormal U_domain).velMagFloor) ∧
    ((BC_Inlet_TotalConditions nDim sq Gamma GasConstant P_Total T_Total
        FlowDir UnitaryNormal U_domain).mach2cut =
      min 1 (BC_Inlet_TotalConditions nDim sq Gamma GasConstant P_Total T_Total
          FlowDir UnitaryNormal U_domain).mach2) ∧
    ((BC_Inlet_TotalConditions nDim sq Gamma GasConstant P_Total T_Total
        FlowDir UnitaryNormal U_domain).mach2cut ≤ 1) ∧
    ((BC_Inlet_TotalConditions nDim sq Gamma GasConstant P_Total T_Total
        FlowDir UnitaryNormal U_domain).velocity2c =
      (BC_Inlet_TotalConditions nDim sq Gamma GasConstant P_Total T_Total
          FlowDir UnitaryNormal U_domain).mach2cut *
        (BC_Inlet_TotalConditions nDim sq Gamma GasConstant P_Total T_Total
            FlowDir UnitaryNormal U_domain).soundSpeed2b) :=
  ⟨rfl, rfl, le_max_left 0 _, rfl, min_le_left 1 _, rfl⟩


/-! ### Restart lemmas (C5) -/

theorem readRestartLines_lt (body : List RestartLine) :
    ∀ (k q : ℕ), q < k → ∀ node0,
      readRestartLines g2l_serial k body node0 q = node0 q := by
  induction body with
  | nil => intro k q hq node0; rfl
  | cons line rest ih =>
    intro k q hq node0
    rw [readRestartLines]
    rw [ih (k + 1) q (by omega)]
    have hqk : q ≠ k := by omega
    simp [g2l_serial, hqk]

theorem readRestartLines_ge (body : List RestartLine) :
    ∀ (k q : ℕ), k + body.length ≤ q → ∀ node0,
      readRestartLines g2l_serial k body node0 q = node0 q := by
  induction body with
  | nil => intro k q hq node0; rfl
  | cons line rest ih =>
    intro k q hq node0
    rw [readRestartLines]
    rw [ih (k + 1) q (by simp at hq ⊢; omega)]
    have hqk : q ≠ k := by simp at hq; omega
    simp [g2l_serial, hqk]

theorem readRestartLines_get (body : List RestartLine) :
    ∀ (k i : ℕ) (hi : i < body.length) (node0 : ℕ → List ℚ),
      readRestartLines g2l_serial k body node0 (k + i) =
        (body.get ⟨i, hi⟩).vals := by
  induction body with
  | nil => intro k i hi; simp at hi
  | cons line rest ih =>
    intro k i hi node0
    rw [readRestartLines]
    cases i with
    | zero =>
      rw [readRestartLines_lt rest (k + 1) (k + 0) (by omega)]
      simp [g2l_serial]
    | succ i' =>
      have h : k + (i' + 1) = (k + 1) + i' := by omega
      rw [h, ih (k + 1) i' (by simpa using hi)]
      rfl

/-- C5: the adjoint restart filename strips the last 4 characters of the
configured adjoint solution name and appends an objective-specific suffix
(`_cd.dat` for drag, `_cl.dat` for lift, `_fwh.dat` for noise — 18 distinct
suffixes in all); a missing file is a fatal diagnostic with process
termination (`exit(1)`); otherwise the header line is discarded and line `i`
of the remaining rows is stored as the solution of mesh point `i` (serial
Global2Local map), points beyond the rows keeping their prior value. -/
theorem C5_restart_filename_and_read (base : String) (g2l : ℕ → ℤ)
    (node0 : ℕ → List ℚ) (lines : List RestartLine) (i q : ℕ)
    (hi : i < (lines.drop 1).length) (hq : (lines.drop 1).length ≤ q) :
    (restartFilename base .DRAG_COEFFICIENT = base.dropRight 4 ++ "_cd.dat") ∧
    (restartFilename base .LIFT_COEFFICIENT = base.dropRight 4 ++ "_cl.dat") ∧
    (restartFilename base .NOISE = base.dropRight 4 ++ "_fwh.dat") ∧
    (objFuncList.length = 18) ∧
    ((objFuncList.map AdjExt).Nodup) ∧
    (∀ k : ObjFunc, k ∈ objFuncList) ∧
    (CAdjEulerSolution_restart none g2l node0 =
      RestartOutcome.fatal "There is no adjoint restart file!!" 1) ∧
    (CAdjEulerSolution_restart (some lines) g2l node0 =
      RestartOutcome.ok (readRestartLines g2l 0 (lines.drop 1) node0)) ∧
    (readRestartLines g2l_serial 0 (lines.drop 1) node0 i =
      ((lines.drop 1).get ⟨i, hi⟩).vals) ∧
    (readRestartLines g2l_serial 0 (lines.drop 1) node0 q = node0 q) := by
  refine ⟨rfl, rfl, rfl, rfl, by decide, ?_, rfl, rfl, ?_, ?_⟩
  · intro k; cases k <;> simp [objFuncList]
  · have h := readRestartLines_get (lines.drop 1) 0 i hi node0
    simpa using h
  · exact readRestartLines_ge (lines.drop 1) 0 q (by omega) node0

/-- C5 witness: the restart theorem instantiated on a concrete three-line
file (one header plus two data rows). -/
theorem C5_restart_filename_and_read_witness :
    ((restartFilename "solution_adj.dat" .DRAG_COEFFICIENT =
        ("solution_adj.dat").dropRight 4 ++ "_cd.dat") ∧
     (restartFilename "solution_adj.dat" .LIFT_COEFFICIENT =
        ("solution_adj.dat").dropRight 4 ++ "_cl.dat") ∧
     (restartFilename "solution_adj.dat" .NOISE =
        ("solution_adj.dat").dropRight 4 ++ "_fwh.dat") ∧
     (objFuncList.length = 18) ∧
     ((objFuncList.map AdjExt).Nodup) ∧
     (∀ k : ObjFunc, k ∈ objFuncList) ∧
     (CAdjEulerSolution_restart none g2l_serial (fun _ => []) =
       RestartOutcome.fatal "There is no adjoint restart file!!" 1) ∧
     (CAdjEulerSolution_restart
        (some [⟨0, []⟩, ⟨0, [2]⟩, ⟨1, [3]⟩]) g2l_serial (fun _ => []) =
       RestartOutcome.ok
         (readRestartLines g2l_serial 0
            (([⟨0, []⟩, ⟨0, [2]⟩, ⟨1, [3]⟩] : List RestartLine).drop 1)
            (fun _ => []))) ∧
     (readRestartLines g2l_serial 0
        (([⟨0, []⟩, ⟨0, [2]⟩, ⟨1, [3]⟩] : List RestartLine).drop 1)
        (fun _ => []) 1 =
       ((([⟨0, []⟩, ⟨0, [2]⟩, ⟨1, [3]⟩] : List RestartLine).drop 1).get
          ⟨1, by decide⟩).vals) ∧
     (readRestartLines g2l_serial 0
        (([⟨0, []⟩, ⟨0, [2]⟩, ⟨1, [3]⟩] : List RestartLine).drop 1)
        (fun _ => []) 5 = (fun _ => ([] : List ℚ)) 5)) :=
  C5_restart_filename_and_read "solution_adj.dat" g2l_serial (fun _ => [])
    [⟨0, []⟩, ⟨0, [2]⟩, ⟨1, [3]⟩] 1 5 (by decide) (by decide)


/-! ### Uninitialized RatioDensity (C8) -/

/-- C8: in `BC_Outlet`'s incompressible level-set branch, `RatioDensity` is
consumed with no prior assignment anywhere in the function — it enters the
embedding as the free parameter `ratioDensity0` holding the indeterminate
initial contents — and at an outlet vertex with `LevelSet > epsilon`
(here Height 3, free-surface zero 0, epsilon 1) the computed exterior state
genuinely depends on that indeterminate value: contents 1 and 7 give
different imposed outlet densities and boundary pressures, whatever the
(equally uninitialized) `Density_Outlet` initially held. -/
theorem C8_RatioDensity_uninitialized_dependence (d0 : ℚ) :
    ((BC_Outlet_levelset 1 d0 2 0 0 1 1 3 0 0).1 ≠
      (BC_Outlet_levelset 7 d0 2 0 0 1 1 3 0 0).1) ∧
    ((BC_Outlet_levelset 1 d0 2 0 0 1 1 3 0 0).2 ≠
      (BC_Outlet_levelset 7 d0 2 0 0 1 1 3 0 0).2) := by
  norm_num [BC_Outlet_levelset]

/-- C8 witness: the dependence theorem instantiated with the indeterminate
initial `Density_Outlet` contents set to 0. -/
theorem C8_RatioDensity_uninitialized_dependence_witness :
    ((BC_Outlet_levelset 1 0 2 0 0 1 1 3 0 0).1 ≠
      (BC_Outlet_levelset 7 0 2 0 0 1 1 3 0 0).1) ∧
    ((BC_Outlet_levelset 1 0 2 0 0 1 1 3 0 0).2 ≠
      (BC_Outlet_levelset 7 0 2 0 0 1 1 3 0 0).2) :=
  C8_RatioDensity_uninitialized_dependence 0

/-! ### MUSCL limiter-index lemmas (C9) -/

theorem projGrad_iDim (nDim : ℕ) (vecI vecJ : ℕ → ℚ)
    (gradI gradJ : ℕ → ℕ → ℚ) (iVar : ℕ) :
    (projGrad nDim vecI vecJ gradI gradJ iVar).2.2 = nDim := by
  cases nDim with
  | zero => rfl
  | succ m => simp only [projGrad, foldRange_succ]

theorem projGrad_fst (vecI vecJ : ℕ → ℚ) (gradI gradJ : ℕ → ℕ → ℚ)
    (iVar : ℕ) : ∀ nDim : ℕ,
    (projGrad nDim vecI vecJ gradI gradJ iVar).1 =
      ∑ d in Finset.range nDim, vecI d * gradI iVar d := by
  intro nDim
  induction nDim with
  | zero => simp [projGrad, foldRange_zero]
  | succ m ih =>
    rw [Finset.sum_range_succ, ← ih]
    simp only [projGrad, foldRange_succ]

theorem projGrad_snd (vecI vecJ : ℕ → ℚ) (gradI gradJ : ℕ → ℕ → ℚ)
    (iVar : ℕ) : ∀ nDim : ℕ,
    (projGrad nDim vecI vecJ gradI gradJ iVar).2.1 =
      ∑ d in Finset.range nDim, vecJ d * gradJ iVar d := by
  intro nDim
  induction nDim with
  | zero => simp [projGrad, foldRange_zero]
  | succ m ih =>
    rw [Finset.sum_range_succ, ← ih]
    simp only [projGrad, foldRange_succ]

theorem musclReconstruct_solI (nDim nVar : ℕ)
    (vecI vecJ limI limJ psiI psiJ : ℕ → ℚ) (gradI gradJ : ℕ → ℕ → ℚ)
    (st0 : MusclState) (iVar : ℕ) (hiVar : iVar < nVar) :
    (musclReconstruct nDim nVar vecI vecJ limI limJ psiI psiJ gradI gradJ
        true st0).solI iVar =
      psiI iVar + (∑ d in Finset.range nDim, vecI d * gradI iVar d) * limI nDim := by
  refine foldRange_once
    (musclReconstructStep nDim vecI vecJ limI limJ psiI psiJ gradI gradJ true)
    (fun (st : MusclState) => st.solI iVar) iVar
    (fun _ =>
      psiI iVar + (∑ d in Finset.range nDim, vecI d * gradI iVar d) * limI nDim)
    ?_ ?_ nVar hiVar st0
  · intro s'
    simp only [musclReconstructStep, if_pos rfl, ite_true]
    rw [projGrad_fst, projGrad_iDim]
  · intro q s' hq
    simp [musclReconstructStep, Ne.symm hq]

theorem musclReconstruct_solJ (nDim nVar : ℕ)
    (vecI vecJ limI limJ psiI psiJ : ℕ → ℚ) (gradI gradJ : ℕ → ℕ → ℚ)
    (st0 : MusclState) (iVar : ℕ) (hiVar : iVar < nVar) :
    (musclReconstruct nDim nVar vecI vecJ limI limJ psiI psiJ gradI gradJ
        true st0).solJ iVar =
      psiJ iVar + (∑ d in Finset.range nDim, vecJ d * gradJ iVar d) * limJ nDim := by
  refine foldRange_once
    (musclReconstructStep nDim vecI vecJ limI limJ psiI psiJ gradI gradJ true)
    (fun (st : MusclState) => st.solJ iVar) iVar
    (fun _ =>
      psiJ iVar + (∑ d in Finset.range nDim, vecJ d * gradJ iVar d) * limJ nDim)
    ?_ ?_ nVar hiVar st0
  · intro s'
    simp only [musclReconstructStep, if_pos rfl, ite_true]
    rw [projGrad_snd, projGrad_iDim]
  · intro q s' hq
    simp [musclReconstructStep, Ne.symm hq]

/-- C9: with the slope limiter enabled, the second-order upwind
reconstruction multiplies every variable's projected gradient by the SAME
limiter component — the one at index `nDim`, the value of the shared
dimension-loop variable after its loop exits — rather than by that
variable's own component: for every edge state and every `iVar < nVar`,
`Solution_i[iVar] = Psi_i[iVar] + Project_Grad_i · Limiter_i[nDim]` and
`Solution_j[iVar] = Psi_j[iVar] + Project_Grad_j · Limiter_j[nDim]`. -/
theorem C9_limiter_uses_index_nDim (nDim nVar : ℕ)
    (vecI vecJ limI limJ psiI psiJ : ℕ → ℚ) (gradI gradJ : ℕ → ℕ → ℚ)
    (st0 : MusclState) (iVar : ℕ) (hiVar : iVar < nVar) :
    ((musclReconstruct nDim nVar vecI vecJ limI limJ psiI psiJ gradI gradJ
        true st0).solI iVar =
      psiI iVar +
        (∑ d in Finset.range nDim, vecI d * gradI iVar d) * limI nDim) ∧
    ((musclReconstruct nDim nVar vecI vecJ limI limJ psiI psiJ gradI gradJ
        true st0).solJ iVar =
      psiJ iVar +
        (∑ d in Finset.range nDim, vecJ d * gradJ iVar d) * limJ nDim) :=
  ⟨musclReconstruct_solI nDim nVar vecI vecJ limI limJ psiI psiJ gradI gradJ
      st0 iVar hiVar,
   musclReconstruct_solJ nDim nVar vecI vecJ limI limJ psiI psiJ gradI gradJ
      st0 iVar hiVar⟩

/-- C9 witness: the limiter-index theorem instantiated at `nDim = 2`,
`nVar = 3`, `iVar = 1` on concrete unit data. -/
theorem C9_limiter_uses_index_nDim_witness :
    ((musclReconstruct 2 3 oneVec oneVec oneVec oneVec oneVec oneVec
        oneField oneField true muscl0).solI 1 =
      oneVec 1 + (∑ d in Finset.range 2, oneVec d * oneField 1 d) * oneVec 2) ∧
    ((musclReconstruct 2 3 oneVec oneVec oneVec oneVec oneVec oneVec
        oneField oneField true muscl0).solJ 1 =
      oneVec 1 + (∑ d in Finset.range 2, oneVec d * oneField 1 d) * oneVec 2) :=
  C9_limiter_uses_index_nDim 2 3 oneVec oneVec oneVec oneVec oneVec oneVec
    oneField oneField muscl0 1 (by decide)

/-! ### List-fold lemmas and BC_FWH (C10) -/

theorem foldl_point_skip {σ α : Type} (f : ℕ → σ → σ) (read : σ → α) (p : ℕ)
    (hskip : ∀ q s, q ≠ p → read (f q s) = read s) :
    ∀ (L : List ℕ) (s : σ), p ∉ L →
      read (L.foldl (fun s q => f q s) s) = read s := by
  intro L
  induction L with
  | nil => intro s _; rfl
  | cons q rest ih =>
    intro s hp
    simp only [List.mem_cons, not_or] at hp
    rw [List.foldl_cons, ih _ hp.2, hskip q s (fun h => hp.1 h.symm)]

theorem foldl_point {σ α : Type} (f : ℕ → σ → σ) (read : σ → α) (p : ℕ)
    (target : α) (hset : ∀ s, read (f p s) = target)
    (hskip : ∀ q s, q ≠ p → read (f q s) = read s) :
    ∀ (L : List ℕ) (s : σ), p ∈ L →
      read (L.foldl (fun s q => f q s) s) = target := by
  intro L
  induction L with
  | nil => intro s h; simp at h
  | cons q rest ih =>
    intro s hmem
    rw [List.foldl_cons]
    by_cases hpr : p ∈ rest
    · exact ih _ hpr
    · have hpq : p = q := by
        rcases List.mem_cons.mp hmem with h | h
        · exact h
        · exact absurd h hpr
      subst hpq
      rw [foldl_point_skip f read p hskip rest _ hpr, hset]

theorem foldRange_preserve_lt {σ α : Type} (f : ℕ → σ → σ) (read : σ → α) :
    ∀ n : ℕ, (∀ q s', q < n → read (f q s') = read s') →
      ∀ s, read (foldRange n f s) = read s := by
  intro n
  induction n with
  | zero => intro _ s; rfl
  | succ m ih =>
    intro h s
    rw [foldRange_succ, h m _ (by omega),
      ih (fun q s' hq => h q s' (by omega))]

theorem deleteRows_in (nVar base : ℕ) (j0 : ℕ → ℕ → ℚ) (v c : ℕ)
    (hv : v < nVar) :
    (foldRange nVar (fun v' j => DeleteValsRowi j (base + v')) j0)
      (base + v) c = if c = base + v then 1 else 0 := by
  refine foldRange_once (fun v' j => DeleteValsRowi j (base + v'))
    (fun (j : ℕ → ℕ → ℚ) => j (base + v) c) v
    (fun _ => if c = base + v then 1 else 0) ?_ ?_ nVar hv j0
  · intro s'; simp [DeleteValsRowi]
  · intro q s' hq
    have hne : base + v ≠ base + q := by omega
    simp [DeleteValsRowi, hne]

/-- C10: `BC_FWH` visits every vertex of its marker with no domain-ownership
guard — for every listed vertex node, owned or halo, it overwrites the
adjoint solution and the old solution with the stored internal-boundary-jump
vector, zeroes the convective, source, viscous and truncation-error
accumulators, and, when implicit, replaces the node's Jacobian rows by
identity rows; by contrast a guarded handler such as `BC_Far_Field` leaves a
non-owned (halo) vertex node entirely untouched. -/
theorem C10_BC_FWH_no_domain_guard (implicit : Bool) (nVar : ℕ)
    (jump : Field2) (L : List ℕ) (st0 : FWHState) (domain : ℕ → Bool)
    (ResidualI : ℕ → ℚ) (res : Field2) (p v c a b : ℕ)
    (hp : p ∈ L) (hv : v < nVar) (hdom : domain p = false) :
    ((BC_FWH implicit nVar jump L st0).solution p v = jump p v) ∧
    ((BC_FWH implicit nVar jump L st0).solutionOld p v = jump p v) ∧
    ((BC_FWH implicit nVar jump L st0).resConv p v = 0) ∧
    ((BC_FWH implicit nVar jump L st0).resSour p v = 0) ∧
    ((BC_FWH implicit nVar jump L st0).resVisc p v = 0) ∧
    ((BC_FWH implicit nVar jump L st0).truncErr p v = 0) ∧
    (implicit = true →
      (BC_FWH implicit nVar jump L st0).jacRow (p * nVar + v) c =
        if c = p * nVar + v then 1 else 0) ∧
    (BC_FarField_vertexStep domain ResidualI p res a b = res a b) := by
  refine ⟨?_, ?_, ?_, ?_, ?_, ?_, ?_, ?_⟩
  · refine foldl_point (BC_FWH_vertexStep implicit nVar jump)
      (fun (st : FWHState) => st.solution p v) p (jump p v) ?_ ?_ L st0 hp
    · intro s; simp [BC_FWH_vertexStep]
    · intro q s hq; simp [BC_FWH_vertexStep, Ne.symm hq]
  · refine foldl_point (BC_FWH_vertexStep implicit nVar jump)
      (fun (st : FWHState) => st.solutionOld p v) p (jump p v) ?_ ?_ L st0 hp
    · intro s; simp [BC_FWH_vertexStep]
    · intro q s hq; simp [BC_FWH_vertexStep, Ne.symm hq]
  · refine foldl_point (BC_FWH_vertexStep implicit nVar jump)
      (fun (st : FWHState) => st.resConv p v) p 0 ?_ ?_ L st0 hp
    · intro s; simp [BC_FWH_vertexStep]
    · intro q s hq; simp [BC_FWH_vertexStep, Ne.symm hq]
  · refine foldl_point (BC_FWH_vertexStep implicit nVar jump)
      (fun (st : FWHState) => st.resSour p v) p 0 ?_ ?_ L st0 hp
    · intro s; simp [BC_FWH_vertexStep]
    · intro q s hq; simp [BC_FWH_vertexStep, Ne.symm hq]
  · refine foldl_point (BC_FWH_vertexStep implicit nVar jump)
      (fun (st : FWHState) => st.resVisc p v) p 0 ?_ ?_ L st0 hp
    · intro s; simp [BC_FWH_vertexStep]
    · intro q s hq; simp [BC_FWH_vertexStep, Ne.symm hq]
  · refine foldl_point (BC_FWH_vertexStep implicit nVar jump)
      (fun (st : FWHState) => st.truncErr p v) p 0 ?_ ?_ L st0 hp
    · intro s; simp [BC_FWH_vertexStep]
    · intro q s hq; simp [BC_FWH_vertexStep, Ne.symm hq]
  · intro himp
    subst himp
    refine foldl_point (BC_FWH_vertexStep true nVar jump)
      (fun (st : FWHState) => st.jacRow (p * nVar + v) c) p
      (if c = p * nVar + v then 1 else 0) ?_ ?_ L st0 hp
    · intro s
      show (foldRange nVar (fun v' j => DeleteValsRowi j (p * nVar + v'))
          s.jacRow) (p * nVar + v) c = _
      exact deleteRows_in nVar (p * nVar) s.jacRow v c hv
    · intro q s hq
      show (foldRange nVar (fun v' j => DeleteValsRowi j (q * nVar + v'))
          s.jacRow) (p * nVar + v) c = s.jacRow (p * nVar + v) c
      refine foldRange_preserve_lt (fun v' j => DeleteValsRowi j (q * nVar + v'))
        (fun (j : ℕ → ℕ → ℚ) => j (p * nVar + v) c) nVar ?_ s.jacRow
      intro v' s' hv'
      have hne : p * nVar + v ≠ q * nVar + v' := by
        rcases blockIndex_disjoint hv hq with h | h <;> omega
      simp [DeleteValsRowi, hne]
  · simp [BC_FarField_vertexStep, hdom]

/-- C10 witness: the `BC_FWH` theorem instantiated on the vertex list
`[0, 1]` with node 1 a halo node (`domain 1 = false`), one variable,
implicit mode. -/
theorem C10_BC_FWH_no_domain_guard_witness :
    ((BC_FWH true 1 oneField [0, 1] fwh0).solution 1 0 = oneField 1 0) ∧
    ((BC_FWH true 1 oneField [0, 1] fwh0).solutionOld 1 0 = oneField 1 0) ∧
    ((BC_FWH true 1 oneField [0, 1] fwh0).resConv 1 0 = 0) ∧
    ((BC_FWH true 1 oneField [0, 1] fwh0).resSour 1 0 = 0) ∧
    ((BC_FWH true 1 oneField [0, 1] fwh0).resVisc 1 0 = 0) ∧
    ((BC_FWH true 1 oneField [0, 1] fwh0).truncErr 1 0 = 0) ∧
    (true = true →
      (BC_FWH true 1 oneField [0, 1] fwh0).jacRow (1 * 1 + 0) 0 =
        if (0 : ℕ) = 1 * 1 + 0 then 1 else 0) ∧
    (BC_FarField_vertexStep (fun q => q = 0) oneVec 1
      (fun _ _ => (5 : ℚ)) 1 0 = (fun _ _ => (5 : ℚ)) 1 0) :=
  C10_BC_FWH_no_domain_guard true 1 oneField [0, 1] fwh0 (fun q => q = 0)
    oneVec (fun _ _ => (5 : ℚ)) 1 0 0 1 0 (by simp) (by decide) (by decide)


/-! ### Smoothing pin lemmas (C7) -/

theorem smoothRowStep_other_row (n : ℕ) (arch : ℕ → ℚ) (eps : ℚ) (i : ℕ)
    (A : ℕ → ℕ → ℚ) (a b : ℕ) (ha : a ≠ i) :
    smoothRowStep n arch eps i A a b = A a b := by
  unfold smoothRowStep
  split_ifs <;> simp [upd2, ha]

theorem smoothRowStep_self_off (n : ℕ) (arch : ℕ → ℚ) (eps : ℚ) (m : ℕ)
    (A : ℕ → ℕ → ℚ) (k : ℕ) (hm0 : m ≠ 0) (hmn : m ≠ n - 1)
    (hk1 : k ≠ m) (hk2 : k ≠ m - 1) (hk3 : k ≠ m + 1) :
    smoothRowStep n arch eps m A m k = A m k := by
  unfold smoothRowStep
  rw [if_pos hm0, if_pos hmn]
  simp [upd2, hk1, hk2, hk3]

theorem smoothMassMatrix_row_off (n : ℕ) (arch : ℕ → ℚ) (eps : ℚ) (m k : ℕ)
    (hm0 : m ≠ 0) (hmn : m ≠ n - 1)
    (hk1 : k ≠ m) (hk2 : k ≠ m - 1) (hk3 : k ≠ m + 1) :
    smoothMassMatrix n arch eps m k = 0 := by
  refine foldRange_preserve (smoothRowStep n arch eps)
    (fun (A : ℕ → ℕ → ℚ) => A m k) ?_ n (fun _ _ => 0)
  intro q s'
  by_cases hq : m = q
  · subst hq
    exact smoothRowStep_self_off n arch eps m s' k hm0 hmn hk1 hk2 hk3
  · exact smoothRowStep_other_row n arch eps q s' m k hq

theorem smoothAddIdent_off_diag (n : ℕ) (A : ℕ → ℕ → ℚ) (m k : ℕ)
    (hk : k ≠ m) : smoothAddIdent n A m k = A m k := by
  refine foldRange_preserve (fun i B => upd2 B i i (B i i + 1))
    (fun (B : ℕ → ℕ → ℚ) => B m k) ?_ n A
  intro q s'
  by_cases hq : m = q
  · subst hq; simp [upd2, hk]
  · simp [upd2, hq]

theorem smoothPin_row_unit (n : ℕ) (arch : ℕ → ℚ) (eps : ℚ) (hn : 3 ≤ n) :
    ∀ k, smoothPin n (smoothAddIdent n (smoothMassMatrix n arch eps))
      (n / 2) k = if k = n / 2 then 1 else 0 := by
  intro k
  have hm1 : 1 ≤ n / 2 := by omega
  have hm0 : n / 2 ≠ 0 := by omega
  have hmn : n / 2 ≠ n - 1 := by omega
  by_cases hk : k = n / 2
  · subst hk
    have h1 : n / 2 ≠ n / 2 - 1 := by omega
    have h2 : n / 2 ≠ n / 2 + 1 := by omega
    simp [smoothPin, upd2, h1, h2]
  · rw [if_neg hk]
    by_cases hk2 : k = n / 2 - 1
    · subst hk2; simp [smoothPin, upd2]
    · by_cases hk3 : k = n / 2 + 1
      · subst hk3
        have h1 : n / 2 + 1 ≠ n / 2 - 1 := by omega
        simp [smoothPin, upd2, h1]
      · simp only [smoothPin, upd2]
        rw [if_neg (by tauto), if_neg (by tauto), if_neg (by tauto)]
        rw [smoothAddIdent_off_diag n _ (n / 2) k hk]
        exact smoothMassMatrix_row_off n arch eps (n / 2) k hm0 hmn hk hk2 hk3

theorem gaussForward_unit_row (n m : ℕ) (A0 : ℕ → ℕ → ℚ) (b0 : ℕ → ℚ)
    (h0 : ∀ k, A0 m k = if k = m then 1 else 0) :
    (∀ k, (foldRange n (gaussForwardStep n) (A0, b0)).1 m k =
        if k = m then 1 else 0) ∧
    (foldRange n (gaussForwardStep n) (A0, b0)).2 m = b0 m := by
  refine foldRange_invariant
    (fun (s : (ℕ → ℕ → ℚ) × (ℕ → ℚ)) =>
      (∀ k, s.1 m k = if k = m then 1 else 0) ∧ s.2 m = b0 m)
    (gaussForwardStep n) ?_ n (A0, b0) ⟨h0, rfl⟩
  intro q s' hP
  constructor
  · intro k
    show (if q < m ∧ m < n then s'.1 m k - s'.1 m q / s'.1 q q * s'.1 q k
        else s'.1 m k) = _
    by_cases hc : q < m ∧ m < n
    · rw [if_pos hc]
      have hq : s'.1 m q = 0 := by
        rw [hP.1 q, if_neg (by omega)]
      rw [hq, zero_div, zero_mul, sub_zero, hP.1 k]
    · rw [if_neg hc, hP.1 k]
  · show (if q < m ∧ m < n then s'.2 m - s'.1 m q / s'.1 q q * s'.2 q
        else s'.2 m) = _
    by_cases hc : q < m ∧ m < n
    · rw [if_pos hc]
      have hq : s'.1 m q = 0 := by
        rw [hP.1 q, if_neg (by omega)]
      rw [hq, zero_div, zero_mul, sub_zero, hP.2]
    · rw [if_neg hc, hP.2]

theorem backSub_pinned (n m : ℕ) (A : ℕ → ℕ → ℚ) (b : ℕ → ℚ)
    (hm : m < n) (hA : ∀ k, A m k = if k = m then 1 else 0) :
    ((List.range n).reverse).foldl (fun x j => backSubStep n A b j x)
      (fun _ => 0) m = b m := by
  refine foldl_point (backSubStep n A b) (fun (x : ℕ → ℚ) => x m) m (b m)
    ?_ ?_ ((List.range n).reverse) (fun _ => 0) (by simpa using hm)
  · intro x
    show (if m = m then
        (b m - ∑ k in Finset.Ico (m + 1) n, A m k * x k) / A m m else x m) = b m
    rw [if_pos rfl]
    have hsum : (∑ k in Finset.Ico (m + 1) n, A m k * x k) = 0 := by
      refine Finset.sum_eq_zero ?_
      intro k hk
      have hkm : k ≠ m := by
        have := Finset.mem_Ico.mp hk
        omega
      rw [hA k, if_neg hkm, zero_mul]
    rw [hsum, sub_zero, hA m, if_pos rfl, div_one]
  · intro q x hq
    show (if m = q then _ else x m) = x m
    rw [if_neg (Ne.symm hq)]

/-- C7: after the diffusion solve of `Smooth_Sensitivity` on an Euler-wall
marker, the smoothed sensitivity at the pinned midpoint vertex `nVertex/2`
equals the right-hand-side value it had immediately before the solve: the
Dirichlet-pinned row (diagonal 1, off-diagonal neighbours 0, all other row
entries never written) passes its right-hand-side entry through the Gaussian
elimination unchanged. -/
theorem C7_Smooth_Sensitivity_midpoint_pin (n : ℕ) (arch : ℕ → ℚ) (eps : ℚ)
    (sens : ℕ → ℚ) (hn : 3 ≤ n) :
    Smooth_Sensitivity_solve n arch eps sens (n / 2) = sens (n / 2) := by
  have hrow := smoothPin_row_unit n arch eps hn
  have hfw := gaussForward_unit_row n (n / 2)
    (smoothPin n (smoothAddIdent n (smoothMassMatrix n arch eps))) sens hrow
  have hm : n / 2 < n := by omega
  show ((List.range n).reverse).foldl
      (fun x j => backSubStep n
        (foldRange n (gaussForwardStep n)
          (smoothPin n (smoothAddIdent n (smoothMassMatrix n arch eps)), sens)).1
        (foldRange n (gaussForwardStep n)
          (smoothPin n (smoothAddIdent n (smoothMassMatrix n arch eps)), sens)).2
        j x)
      (fun _ => 0) (n / 2) = sens (n / 2)
  rw [backSub_pinned n (n / 2) _ _ hm hfw.1]
  exact hfw.2

/-- C7 witness: the midpoint-pin theorem instantiated on a concrete
four-vertex wall marker with unit arc spacing. -/
theorem C7_Smooth_Sensitivity_midpoint_pin_witness :
    Smooth_Sensitivity_solve 4 (fun k => (k : ℚ)) (1 / 20000)
      (fun k => (k : ℚ) * (k : ℚ)) 2 = 2 * 2 := by
  have h := C7_Smooth_Sensitivity_midpoint_pin 4 (fun k => (k : ℚ)) (1 / 20000)
    (fun k => (k : ℚ) * (k : ℚ)) (by decide)
  simpa using h


end SU2
